import Mathlib

/-!
Verification of the categorical word-index core of the repository: the
word encoder (vowel positions, positional letters, first-letter category
buckets), the three domain indexes (common nouns built from the JSONL
dataset, first names, places), their build pipelines, and the exact and
category query operations.

Embedding conventions:
* A Python dict with a fixed field set becomes a structure; a field whose
  key may be absent becomes an Option field.
* The index mapping from structural key to bucket is represented by the
  flat list of (key, entry) insertions produced by the build loop; the
  bucket of a key is the ordered sublist of entries inserted at that key.
* Python set iteration (the union of keyword and counted subjects in the
  JSONL build, and the letters of a category bucket) has no specified
  order; we enumerate subjects in first-appearance order and letters in
  source-literal order, realizing one legal iteration order.  No theorem
  below depends on the chosen order, only on membership.
* Fallible operations (Python ValueError) return Except String.
* Side files (holdable flags, rhyme flags, nicknames, LLM labels) are
  parameters: a function or list standing for the loaded file contents.
-/

deriving instance DecidableEq for Except

namespace Enigma

/-- ASCII whitespace characters stripped by Python str.strip. -/
def pyWhitespace : List Char := [' ', '\t', '\n', '\r', '\x0b', '\x0c']

/-- Python str.strip: drop leading and trailing whitespace. -/
def pyStrip (s : String) : String :=
  String.mk (((s.data.dropWhile (pyWhitespace.contains ·)).reverse.dropWhile
    (pyWhitespace.contains ·)).reverse)

/-- Python str.lower (ASCII data). -/
def lowerStr (s : String) : String := String.mk (s.data.map Char.toLower)

/-- Python str.upper (ASCII data). -/
def upperStr (s : String) : String := String.mk (s.data.map Char.toUpper)

/-- Python str.replace(c, empty) for each c in cs: remove all occurrences. -/
def stripChars (cs : List Char) (s : String) : String :=
  String.mk (s.data.filter (fun c => !cs.contains c))

/-- VOWELS = "AEIOUY" (shared by all three index modules). -/
def VOWELS : List Char := ['A', 'E', 'I', 'O', 'U', 'Y']

/-- Helper for vowel_positions: positions are 1-based, i is the 0-based
index of the head of the remaining character list. -/
def vowel_positions_aux : Nat → List Char → List Nat
  | _, [] => []
  | i, c :: cs =>
    if VOWELS.contains c then (i + 1) :: vowel_positions_aux (i + 1) cs
    else vowel_positions_aux (i + 1) cs

/-- Model of vowel_positions (wordnet_vowel_index) and of the identical
private helpers in first_name_index and place_index: 1-based positions of
the vowels of the uppercased word. -/
def vowel_positions (word : String) : List Nat :=
  vowel_positions_aux 0 (upperStr word).data

/-- Start codepoints of the value-aligned blocks of ten decimal digits
(digit values 0 to 9 in codepoint order) that make up the Unicode Nd
category, the character class matched by a backslash-d in a Python str
regex (unicodedata 14.0.0). -/
def ndRangeStarts : List Nat :=
  [48, 1632, 1776, 1984, 2406, 2534, 2662, 2790, 2918, 3046, 3174, 3302, 3430,
   3558, 3664, 3792, 3872, 4160, 4240, 6112, 6160, 6470, 6608, 6784, 6800,
   6992, 7088, 7232, 7248, 42528, 43216, 43264, 43472, 43504, 43600, 44016,
   65296, 66720, 68912, 69734, 69872, 69942, 70096, 70384, 70736, 70864,
   71248, 71360, 71472, 71904, 72016, 72784, 73040, 73120, 92768, 92864,
   93008, 120782, 120792, 120802, 120812, 120822, 123200, 123632, 125264,
   130032]

/-- The digit class of a Python str regex: any Unicode decimal digit
(category Nd), not only ASCII. -/
def pyRegexDigit (c : Char) : Bool :=
  ndRangeStarts.any (fun s => decide (s ≤ c.toNat) && decide (c.toNat < s + 10))

/-- Numeric value of one Nd digit, as used by Python int() on the digit
group: its offset inside its value-aligned block. -/
def pyDigitVal (c : Char) : Nat :=
  match ndRangeStarts.find? (fun s => decide (s ≤ c.toNat) && decide (c.toNat < s + 10)) with
  | some s => c.toNat - s
  | none => 0

/-- Python str.upper restricted to what the constraint regex can see:
ASCII case mapping plus the only two non-ASCII characters whose single
character uppercase lands in A-Z (dotless i U+0131 and long s U+017F).
Multi character expansions (such as sharp s to SS) always leave at least
two trailing letters, so they can never produce a regex match; leaving
them unexpanded yields the same match failure. -/
def pyUpperChar (c : Char) : Char :=
  if c = '\u0131' then 'I'
  else if c = '\u017F' then 'S'
  else c.toUpper

/-- Numeric value of a digit string, as Python int() on the digit group
of a match. -/
def natOfDigits (ds : List Char) : Nat :=
  ds.foldl (fun n c => n * 10 + pyDigitVal c) 0

/-- Model of matching RANDOM_LETTER_RE (one or more decimal digits
followed by a single ASCII letter) against s.upper() and extracting
(position, lowercased letter), as done by the three query_category
implementations. The regex end anchor also matches immediately before a
single newline at the end of the string, so one trailing newline is
tolerated; the digits are Unicode Nd digits. -/
def parse_random_constraint (s : String) : Option (Nat × Char) :=
  let u := s.data.map pyUpperChar
  let u := if u.getLast? = some '\n' then u.dropLast else u
  match u.getLast? with
  | none => none
  | some last =>
    let ds := u.dropLast
    if (!ds.isEmpty) && ds.all pyRegexDigit && last.isAlpha then
      some (natOfDigits ds, last.toLower)
    else none

/-- Generic first-occurrence deduplication with an accumulator of already
seen keys; models the seen-set loops used after every build and inside
every query_category. -/
def dedupKeyed {α : Type} (key : α → String) : List α → List String → List α
  | [], _ => []
  | x :: xs, seen =>
    if key x ∈ seen then dedupKeyed key xs seen
    else x :: dedupKeyed key xs (key x :: seen)

/-- Structural key of an entry: (length, first letter, v1, v2). -/
structure SKey where
  length : Nat
  firstLetter : Char
  v1 : Nat
  v2 : Nat
  deriving DecidableEq

def ANIMALS : List String := [
"aardvark","alligator","ant","anteater","antelope","ape","armadillo","badger",
"bat","bear","beaver","bee","beetle","bison","boar","buffalo","bull","butterfly",
"camel","canary","caribou","cat","caterpillar","cheetah","chicken","chimpanzee",
"chipmunk","cobra","cougar","cow","coyote","crab","crow","deer","dinosaur",
"dog","dolphin","donkey","dove","dragonfly","duck","eagle","eel","elephant",
"elk","falcon","ferret","finch","firefly","fish","flamingo","fly","fox","frog",
"gazelle","giraffe","goat","goose","gorilla","grasshopper","grouse","hamster",
"hawk","hedgehog","hippo","horse","hummingbird","iguana","jackal","jaguar",
"jay","jellyfish","kangaroo","koala","ladybug","lamb","lemur","leopard",
"lion","lizard","lobster","lynx","mole","monkey","moose","mosquito","moth",
"mouse","mule","newt","octopus","opossum","orangutan","osprey","ostrich","otter",
"owl","ox","panda","panther","parrot","peacock","pelican","penguin","pig","pigeon",
"porcupine","puma","quail","rabbit","raccoon","rat","raven","reindeer","rhino",
"robin","rooster","salamander","salmon","seal","shark","sheep","skunk","sloth",
"snail","snake","sparrow","spider","squid","squirrel","starfish","stork","swan",
"tiger","toad","trout","turkey","turtle","vulture","walrus","wasp","weasel",
"whale","wolf","wombat","woodpecker","worm","yak","zebra"
]
def FOOD_PLANT : List String := [
"apple","banana","bread","broccoli","burger","butter","cake","candy","carrot",
"celery","cheese","cherry","chocolate","coconut","coffee","cookie","corn",
"cucumber","donut","egg","fish","garlic","grape","honey","ice","jam","juice",
"kale","lemon","lettuce","lime","lobster","mango","meat","milk","mushroom",
"noodle","nut","oat","oil","onion","orange","pasta","peach","pear","pepper",
"pickle","pie","pizza","pork","potato","pumpkin","rice","salad","salt",
"sandwich","sausage","soup","spinach","steak","sugar","tea","tomato","turkey",
"water","watermelon","wine","yogurt","zucchini",
"tree","oak","pine","maple","birch","cedar","spruce","willow","cactus","flower",
"rose","tulip","daisy","orchid","fern","ivy","bamboo","moss","algae"
]
def CLOTHING : List String := [
"hat","cap","helmet","shirt","tshirt","t-shirt","sweater","hoodie","jacket",
"coat","vest","pants","trousers","shorts","jeans","leggings","skirt","dress",
"miniskirt","bikini","bra","underwear",
"socks","sock","shoe","shoes","boot","boots","sandal","glove","gloves","scarf",
"belt","tie","watch","ring","necklace","bracelet","earring","earrings","goggles",
"glasses","spectacles","umbrella","backpack","bag","purse","wallet"
]
def FURNITURE : List String := [
"bed","sofa","couch","chair","armchair","table","desk","dresser","cabinet",
"shelf","bookshelf","stool","bench","sofabed","closet","wardrobe","door",
"window","lamp","light","fan","mirror","rug","carpet","toilet","sink","shower",
"bathtub","fridge","freezer","stove","oven","microwave","dishwasher",
"vacuum","washer","dryer"
]
def OBJECT_TOOL : List String := [
"hammer","nail","screw","screwdriver","wrench","pliers","scissors","knife",
"fork","spoon","spatula","pan","pot","bowl","cup","mug","plate","bottle",
"jar","box","bag","bucket","can","rope","string","tape","glue","paper",
"pencil","pen","marker","crayon","brush","comb","key","lock","phone","camera",
"clock","watch","radio","tablet","laptop","computer","mouse","keyboard","drum",
"guitar","violin","trumpet","ball","bat","racket","frisbee","kite","toy",
"dice","card","coin","tool","fireworks","metalwork","charger"
]
def VEHICLE_MACHINE : List String := [
"car","truck","bus","bike","bicycle","motorcycle","scooter","train","plane",
"motorbike","firetruck","spaceship","helicopter","boat","ship","submarine",
"tank","rocket","spaceship","robot","computer","engine","motor","machine"
]
def NATURAL_MATERIAL : List String := [
"rock","stone","pebble","granite","marble","sand","dirt","soil","mud","clay",
"dust","ash","coal","charcoal","diamond","gold","silver","copper","iron","steel",
"bronze","brass","aluminum","lead","mercury","water","ice","steam","snow",
"rain","cloud","fog","wind","air","fire","lava","magma","smoke","gas","oil",
"salt","sugar","oxygen","hydrogen","helium","planet","star","moon","comet",
"asteroid","mountain","hill","valley","river","lake","ocean","sea","beach"
]
def PERSON_WORDS : List String := [
"teacher", "driver", "worker", "player", "singer", "dancer", "writer",
"painter", "farmer", "baker", "maker", "helper", "leader", "speaker",
"trader", "manager", "banker", "lawyer", "doctor", "actor", "director",
"editor", "visitor", "customer", "stranger", "passenger", "officer",
"soldier", "warrior", "hunter", "fighter", "winner", "loser", "owner",
"buyer", "seller", "dealer", "employer", "employee", "partner", "member",
"user", "caller", "holder", "keeper", "server", "waiter", "rider",
"swimmer", "runner", "climber", "walker", "talker", "sleeper", "dreamer",
"believer", "follower", "supporter", "reporter", "photographer", "designer",
"engineer", "programmer", "developer", "researcher", "scientist", "artist",
"musician", "pianist", "guitarist", "drummer", "violinist", "organist",
"therapist", "dentist", "specialist", "journalist", "economist", "tourist",
"florist", "stylist", "analyst", "psychologist", "biologist", "geologist",
"historian", "librarian", "vegetarian", "comedian", "magician", "musician",
"politician", "electrician", "technician", "physician", "pediatrician"
]
def COMMON_COUNTRIES : List String := [
"usa", "china", "russia", "india", "brazil", "canada", "australia",
"japan", "germany", "france", "italy", "spain", "mexico", "argentina",
"egypt", "turkey", "iran", "poland", "ukraine", "nigeria", "ethiopia",
"kenya", "ghana", "morocco", "algeria", "libya", "sudan", "chad",
"england", "scotland", "wales", "ireland", "norway", "sweden", "denmark",
"finland", "belgium", "netherlands", "switzerland", "austria", "portugal",
"greece", "hungary", "romania", "croatia", "serbia", "bulgaria",
"israel", "jordan", "lebanon", "kuwait", "qatar", "thailand", "vietnam",
"malaysia", "singapore", "philippines", "indonesia", "pakistan", "bangladesh",
"myanmar", "cambodia", "laos", "nepal", "tibet", "mongolia", "kazakhstan",
"peru", "chile", "venezuela", "colombia", "ecuador", "bolivia", "paraguay",
"uruguay", "cuba", "jamaica", "haiti", "panama", "nicaragua", "guatemala",
"honduras", "libya", "tunisia", "zimbabwe", "botswana", "zambia", "tanzania",
"uganda", "rwanda", "madagascar", "mali", "niger", "somalia", "yemen",
"afghanistan", "uzbekistan", "georgia", "armenia", "azerbaijan", "cyprus"
]
def COMMON_CITIES : List String := [
"tokyo", "beijing", "delhi", "shanghai", "mumbai", "dhaka", "karachi",
"istanbul", "moscow", "london", "paris", "madrid", "barcelona", "rome",
"berlin", "vienna", "amsterdam", "stockholm", "oslo", "copenhagen",
"warsaw", "prague", "budapest", "athens", "dublin", "lisbon", "zurich",
"newyork", "losangeles", "chicago", "houston", "phoenix", "philadelphia",
"antonio", "diego", "dallas", "jose", "austin", "worth", "columbus",
"charlotte", "francisco", "indianapolis", "seattle", "denver", "washington",
"boston", "nashville", "baltimore", "portland", "vegas", "detroit", "memphis",
"cairo", "lagos", "kinshasa", "luanda", "johannesburg", "casablanca",
"addis", "nairobi", "dar", "kampala", "khartoum", "algiers", "tunis",
"tehran", "baghdad", "riyadh", "kuwait", "doha", "dubai", "muscat",
"kabul", "islamabad", "lahore", "kolkata", "chennai", "bangalore", "hyderabad",
"bangkok", "jakarta", "manila", "kuala", "singapore", "hanoi", "saigon",
"yangon", "phnom", "seoul", "busan", "taipei", "hong", "macau",
"sydney", "melbourne", "perth", "brisbane", "adelaide", "auckland", "wellington",
"toronto", "vancouver", "montreal", "calgary", "ottawa", "quebec",
"mexico", "guadalajara", "monterrey", "bogota", "medellin", "caracas",
"lima", "quito", "santiago", "valparaiso", "buenos", "montevideo", "asuncion",
"brasilia", "paulo", "janeiro", "salvador", "fortaleza", "recife", "manaus"
]

/-- Model of classify_subject (wordnet_vowel_index): first matching
membership set wins, in source order; person detection is by exact
membership in PERSON_WORDS; the fallback is unknown. Returns
(bucket, manmade). -/
def classify_subject (word : String) : String × Bool :=
  let w := lowerStr word
  if ANIMALS.contains w then ("animal", false)
  else if FOOD_PLANT.contains w then ("food-plant", false)
  else if CLOTHING.contains w then ("clothing", true)
  else if FURNITURE.contains w then ("furniture", true)
  else if VEHICLE_MACHINE.contains w then ("vehicle-machine", true)
  else if OBJECT_TOOL.contains w then ("object-tool", true)
  else if NATURAL_MATERIAL.contains w then ("natural-material", false)
  else if PERSON_WORDS.contains w then ("person", false)
  else ("unknown", false)

namespace WordIndex

/-- One metadata record of the common-noun index, as inserted by
_build_from_jsonl and enriched afterwards. compound is Option because
_add_compound_flags distinguishes a missing key from a stored flag;
origin, size and label are absent until the gemini overlay supplies them. -/
structure Entry where
  word : String
  holdable : Bool
  cat : String
  manmade : Bool
  common : Bool
  freq_count : Nat
  compound : Option Bool
  origin : Option String
  size : Option String
  label : Option String
  deriving DecidableEq

/-- One row of thing_labels.tsv as parsed into _LABELS_DICT. -/
structure LabelMeta where
  origin : String
  size : String
  label : String
  deriving DecidableEq

/-- One parsed line of the twentyquestions JSONL dataset (malformed JSON
lines are skipped before this point and are out of scope). -/
structure JRow where
  subject : String
  source : String
  deriving DecidableEq

/-- The regex fullmatch of the sanity check: one or more characters, each
a lowercase letter, hyphen or space. -/
def validSubject (s : String) : Bool :=
  !s.data.isEmpty && s.data.all (fun c => ('a' ≤ c && c ≤ 'z') || c == '-' || c == ' ')

/-- First pass of _build_from_jsonl: the stream of sanitized subjects that
reach the frequency counter (nonempty after strip and lower, and matching
the sanity regex). Repetitions are kept because they feed the counts. -/
def sanitizedSubjects (rows : List JRow) : List String :=
  rows.filterMap (fun r =>
    let s := lowerStr (pyStrip r.subject)
    if s.isEmpty then none
    else if validSubject s then some s else none)

/-- Subjects of rows whose source field is the keywords marker; collected
before the sanity checks, exactly as in the source. -/
def keywordSubjects (rows : List JRow) : List String :=
  rows.filterMap (fun r =>
    if r.source == "keywords" then some (lowerStr (pyStrip r.subject)) else none)

/-- The union keyword_subjects.union(subject_counts.keys()), enumerated in
first-appearance order (Python iterates this set in an unspecified order;
no theorem depends on the order). -/
def all_subjects (rows : List JRow) : List String :=
  dedupKeyed id (keywordSubjects rows ++ sanitizedSubjects rows) []

/-- subject_counts.get(s, 0): occurrences of s among the sanitized subjects. -/
def subjectCount (rows : List JRow) (s : String) : Nat :=
  (sanitizedSubjects rows).count s

/-- The per-subject body of the second loop of _build_from_jsonl: returns
the structural key and the freshly inserted metadata record, or none when
the subject is skipped (no vowel, or classified person). holdable_set
models membership in the loaded holdable_flags side file. The headD
default is unreachable: display_word is nonempty whenever the cleaned word
has a vowel. -/
def process_subject (holdable_set : String → Bool) (rows : List JRow) (subj : String) :
    Option (SKey × Entry) :=
  let c := subjectCount rows subj
  let count := if c = 0 then 1 else c
  let clean_word := stripChars [' ', '-'] subj
  let vpos := vowel_positions clean_word
  if vpos.isEmpty then none
  else
    let first_v := vpos.headD 0
    let second_v := (vpos.drop 1).headD 0
    let bm := classify_subject subj
    if bm.1 == "person" then none
    else
      let display_word := stripChars ['-'] subj
      some (⟨clean_word.length, display_word.data.headD 'a', first_v, second_v⟩,
        { word := display_word
          holdable := holdable_set display_word
          cat := bm.1
          manmade := bm.2
          common := decide (count > 1)
          freq_count := count
          compound := some (subj.data.contains ' ' || subj.data.contains '-')
          origin := none, size := none, label := none })

/-- All (key, entry) insertions performed by _build_from_jsonl. -/
def insertions (holdable_set : String → Bool) (rows : List JRow) : List (SKey × Entry) :=
  (all_subjects rows).filterMap (process_subject holdable_set rows)

/-- The bucket self.index[k] right after the insertion loop. -/
def rawBucket (holdable_set : String → Bool) (rows : List JRow) (k : SKey) : List Entry :=
  ((insertions holdable_set rows).filter (fun p => p.1 == k)).map (·.2)

/-- The vocabulary set built by _add_compound_flags (the set of all words
across all buckets; deduplication does not change this set, so it is taken
from the insertions). -/
def noun_set (holdable_set : String → Bool) (rows : List JRow) : List String :=
  (insertions holdable_set rows).map (fun p => p.2.word)

/-- The glued-compound split search of _add_compound_flags: some i in
range(3, len(w) - 2) with both halves in the vocabulary. -/
def gluedCompound (nouns : List String) (w : String) : Bool :=
  (List.range' 3 (w.length - 5)).any fun i =>
    nouns.contains (String.mk (w.data.take i)) && nouns.contains (String.mk (w.data.drop i))

/-- The per-item body of _add_compound_flags: an entry whose compound key
is already set is left unchanged; otherwise separators force true, else
the glued-compound heuristic decides. -/
def add_compound_flag (nouns : List String) (e : Entry) : Entry :=
  if e.compound.isSome then e
  else if e.word.data.contains ' ' || e.word.data.contains '-' then
    { e with compound := some true }
  else { e with compound := some (gluedCompound nouns e.word) }

/-- The per-item body of _apply_gemini_labels: merge the label row if the
word has one, overriding cat with the label and deriving manmade from the
origin field. labels models _LABELS_DICT.get. -/
def apply_gemini_labels (labels : String → Option LabelMeta) (e : Entry) : Entry :=
  match labels e.word with
  | none => e
  | some m =>
    { e with origin := some m.origin, size := some m.size, label := some m.label,
             cat := m.label, manmade := decide (m.origin = "man-made") }

/-- The excluded category set of _filter_excluded_categories. -/
def excluded_categories : List String := ["person", "abstract", "place"]

/-- The per-bucket body of _filter_excluded_categories (a key whose list
becomes empty is deleted; in the functional representation an empty bucket
and a missing key are both the empty list, matching dict.get defaulting). -/
def filter_excluded (l : List Entry) : List Entry :=
  l.filter (fun e => decide (e.cat ∉ excluded_categories))

/-- The final common-noun index as built by _build_from_jsonl: the bucket
at structural key k after insertion, per-bucket dedup, compound flags,
gemini labels, and the permanent category exclusion, in source order. -/
def finalBucket (holdable_set : String → Bool) (labels : String → Option LabelMeta)
    (rows : List JRow) (k : SKey) : List Entry :=
  filter_excluded
    (((dedupKeyed (·.word) (rawBucket holdable_set rows k) []).map
        (add_compound_flag (noun_set holdable_set rows))).map
      (apply_gemini_labels labels))

/-- Model of WordIndex.query: a direct dictionary hit on the exact key;
the category and holdable parameters appear in the signature but are not
used by the body. -/
def query (idx : SKey → List Entry) (length : Nat) (first_letter : Char)
    (first_vowel_pos second_vowel_pos : Nat) (category : Nat) (holdable : Option Bool) :
    List Entry :=
  idx ⟨length, first_letter.toLower, first_vowel_pos, second_vowel_pos⟩

/-- CATEGORY_MAP of wordnet_vowel_index (letters in source-literal order;
Python stores a set, only membership is meaningful). -/
def CATEGORY_MAP : Nat → Option (List Char)
  | 1 => some ['A', 'E', 'I', 'F', 'H', 'K', 'L', 'M', 'N', 'T', 'V', 'W', 'X', 'Y', 'Z']
  | 2 => some ['C', 'G', 'O', 'J', 'Q', 'S', 'U']
  | 3 => some ['B', 'D', 'P', 'R', 'J', 'U']
  | _ => none

/-- Model of _char_at (wordnet_vowel_index): 1-based letter of the word
with spaces and hyphens removed; none models the empty-string sentinel. -/
def char_at (word : String) (pos : Nat) : Option Char :=
  let clean := (stripChars [' ', '-'] word).data
  if 1 ≤ pos ∧ pos ≤ clean.length then clean[pos - 1]? else none

/-- Candidate gathering of query_category: per-letter exact lookups,
concatenated. -/
def candidates (idx : SKey → List Entry) (length : Nat) (letters : List Char)
    (v1 v2 : Nat) : List Entry :=
  (letters.map (fun L => idx ⟨length, L.toLower, v1, v2⟩)).flatten

/-- The holdable filter of query_category. -/
def holdableFilter (holdable : Option Bool) (l : List Entry) : List Entry :=
  match holdable with
  | some true => l.filter (·.holdable)
  | some false => l.filter (fun e => !e.holdable)
  | none => l

/-- The random_constraint step of query_category: skipped when the
argument is None or empty (Python truthiness); a nonempty string that does
not match the regex raises; otherwise filter on the positional letter. -/
def rcFilter (rc : Option String) (l : List Entry) : Except String (List Entry) :=
  match rc with
  | none => Except.ok l
  | some s =>
    if s == "" then Except.ok l
    else
      match parse_random_constraint s with
      | none =>
        Except.error "random_constraint must look like \x275S\x27 (position followed by letter)"
      | some pc => Except.ok (l.filter (fun e => char_at e.word pc.1 == some pc.2))

/-- The more_vowels filter of query_category (recounts vowels of the
display word). -/
def moreVowelsFilter (more_vowels : Option Bool) (l : List Entry) : List Entry :=
  match more_vowels with
  | some true => l.filter (fun e => decide ((vowel_positions e.word).length > 2))
  | some false => l.filter (fun e => decide ((vowel_positions e.word).length ≤ 2))
  | none => l

/-- The compound filter of query_category: item.get("compound") truthiness,
a missing key counting as false. -/
def compoundFilter (compound : Option Bool) (l : List Entry) : List Entry :=
  match compound with
  | some true => l.filter (fun e => e.compound.getD false)
  | some false => l.filter (fun e => !e.compound.getD false)
  | none => l

/-- Model of WordIndex.query_category: validate the bucket id, gather and
dedup candidates, then apply holdable, random_constraint, more_vowels and
compound filters in source order, returning full metadata records. -/
def query_category (idx : SKey → List Entry) (length category first_vowel_pos : Nat)
    (second_vowel_pos : Nat) (random_constraint : Option String)
    (more_vowels holdable compound : Option Bool) : Except String (List Entry) :=
  match CATEGORY_MAP category with
  | none => Except.error ("Unknown category " ++ toString category ++ ". Must be 1, 2, or 3.")
  | some letters =>
    let deduped := dedupKeyed (·.word)
      (candidates idx length letters first_vowel_pos second_vowel_pos) []
    let deduped := holdableFilter holdable deduped
    match rcFilter random_constraint deduped with
    | Except.error e => Except.error e
    | Except.ok filtered =>
      Except.ok (compoundFilter compound (moreVowelsFilter more_vowels filtered))

end WordIndex


/-- The vowel-count comprehension shared verbatim by the query_category of
first_name_index and place_index (recounts vowels of the name). -/
def moreVowelsPairs {β : Type} (more_vowels : Option Bool) (l : List (String × β)) :
    List (String × β) :=
  match more_vowels with
  | some true => l.filter (fun n => decide ((vowel_positions n.1).length > 2))
  | some false => l.filter (fun n => decide ((vowel_positions n.1).length ≤ 2))
  | none => l

namespace FirstNameIndex

/-- The metadata dict built per name by FirstNameIndex._build. -/
structure Meta where
  gender : String
  origin : Option String
  rank_us : Nat
  count : Nat
  common : Bool
  has_nickname : Bool
  rhyme : Bool
  nick_count : Nat
  deriving DecidableEq

/-- One row as yielded by _load_rows (name lowered, gender lowered, origin
uppered, ranks parsed; file handling itself is out of scope). -/
structure NameRow where
  name : String
  gender : String
  origin : String
  rank_us : Nat
  rank_world : Nat
  deriving DecidableEq

/-- CATEGORY_MAP of first_name_index (identical literals to the other two
modules). -/
def CATEGORY_MAP : Nat → Option (List Char)
  | 1 => some ['A', 'E', 'I', 'F', 'H', 'K', 'L', 'M', 'N', 'T', 'V', 'W', 'X', 'Y', 'Z']
  | 2 => some ['C', 'G', 'O', 'J', 'Q', 'S', 'U']
  | 3 => some ['B', 'D', 'P', 'R', 'J', 'U']
  | _ => none

/-- Model of _char_at (first_name_index): 1-based letter of the word with
spaces removed; none models the empty-string sentinel. -/
def char_at (word : String) (pos : Nat) : Option Char :=
  let clean := (stripChars [' '] word).data
  if 1 ≤ pos ∧ pos ≤ clean.length then clean[pos - 1]? else none

/-- The per-row body of FirstNameIndex._build. nick_set and nick_count
model the loaded nickname side file; rhyme_set models RHYME_SET. Python
truthiness of the common expression: rank nonzero and at most 200, on
either scale. The headD default is unreachable for names with a vowel. -/
def build_row (nick_set : List String) (nick_count : String → Nat) (rhyme_set : List String)
    (r : NameRow) : Option (SKey × (String × Meta)) :=
  if r.name.data.contains ' ' then none
  else
    let vpos := vowel_positions r.name
    if vpos.isEmpty then none
    else
      some (⟨r.name.length, r.name.data.headD 'a', vpos.headD 0, (vpos.drop 1).headD 0⟩,
        (r.name,
          { gender := if r.gender == "m" || r.gender == "f" then r.gender else "u"
            origin := if r.origin.length = 2 then some r.origin else none
            rank_us := r.rank_us
            count := r.rank_world
            common := (decide (r.rank_us ≠ 0) && decide (r.rank_us ≤ 200)) ||
                      (decide (r.rank_world ≠ 0) && decide (r.rank_world ≤ 200))
            has_nickname := nick_set.contains r.name
            rhyme := rhyme_set.contains r.name
            nick_count := nick_count r.name }))

/-- The bucket self.index[k] after FirstNameIndex._build, including the
final per-bucket dedup by name. -/
def bucket (nick_set : List String) (nick_count : String → Nat) (rhyme_set : List String)
    (rows : List NameRow) (k : SKey) : List (String × Meta) :=
  dedupKeyed (·.1)
    (((rows.filterMap (build_row nick_set nick_count rhyme_set)).filter
      (fun p => p.1 == k)).map (·.2)) []

/-- The keep predicate of FirstNameIndex._filter, mirroring its chain of
continue statements (gender and origin use Python truthiness, the others
compare against literal values). -/
def keep (gender origin : Option String) (common : Option Bool) (nickname : Option String)
    (rhyme : Option Bool) (m : Meta) : Bool :=
  (match gender with | none => true | some g => decide (g = "") || decide (m.gender = g)) &&
  (match origin with
    | none => true
    | some o => decide (o = "") || decide (m.origin = some (upperStr o))) &&
  (!(common == some true) || m.common) &&
  (!(common == some false) || !m.common) &&
  (!(nickname == some "nickname") || m.has_nickname) &&
  (!(nickname == some "multiple") || decide (m.nick_count ≥ 2)) &&
  (!(nickname == some "none") || !m.has_nickname) &&
  (!(rhyme == some true) || m.rhyme) &&
  (!(rhyme == some false) || !m.rhyme)

/-- Model of FirstNameIndex._filter: the bare names (not the metadata) of
the rows surviving the keep predicate, in order. -/
def filter_names (items : List (String × Meta)) (gender origin : Option String)
    (common : Option Bool) (nickname : Option String) (rhyme : Option Bool) : List String :=
  (items.filter (fun p => keep gender origin common nickname rhyme p.2)).map (·.1)

/-- The set literal of the ms filters, as one-letter strings. -/
def msStrings : List String := ["m", "t", "s", "f", "w"]

/-- The same five letters as characters, for the query_category variant
that indexes into the name string. -/
def msLetters : List Char := ['m', 't', 's', 'f', 'w']

/-- First character membership; Python raises IndexError on an empty name,
which the build never produces (every indexed name has a vowel). -/
def firstCharIn (s : String) (cs : List Char) : Bool :=
  match s.data with
  | [] => false
  | c :: _ => cs.contains c

/-- Model of FirstNameIndex.query. Faithful to the source: the ms filter
iterates over (name, meta) PAIRS, so the subscript n[0] selects the whole
name string, which is then tested for membership in the set of five
one-letter strings (this is the tuple-subscript slip, kept as is). -/
def query (idx : SKey → List (String × Meta)) (length : Nat) (first_letter : Char)
    (first_vowel_pos second_vowel_pos : Nat) (gender origin : Option String)
    (common : Option Bool) (nickname : Option String) (rhyme ms : Option Bool) : List String :=
  let results := idx ⟨length, first_letter.toLower, first_vowel_pos, second_vowel_pos⟩
  let results := match ms with
    | some true => results.filter (fun n => msStrings.contains n.1)
    | some false => results.filter (fun n => !msStrings.contains n.1)
    | none => results
  filter_names results gender origin common nickname rhyme

/-- Candidate gathering of FirstNameIndex.query_category. -/
def candidates (idx : SKey → List (String × Meta)) (length : Nat) (letters : List Char)
    (v1 v2 : Nat) : List (String × Meta) :=
  (letters.map (fun L => idx ⟨length, L.toLower, v1, v2⟩)).flatten

/-- The random_constraint step of FirstNameIndex.query_category. -/
def rcFilter (rc : Option String) (l : List (String × Meta)) :
    Except String (List (String × Meta)) :=
  match rc with
  | none => Except.ok l
  | some s =>
    if s == "" then Except.ok l
    else
      match parse_random_constraint s with
      | none => Except.error "random_constraint must look like \x275S\x27"
      | some pc => Except.ok (l.filter (fun n => char_at n.1 pc.1 == some pc.2))

/-- The ms step of FirstNameIndex.query_category: here n ranges over name
strings, so n[0] is the first letter of the name. -/
def msFilter (ms : Option Bool) (l : List (String × Meta)) : List (String × Meta) :=
  match ms with
  | some true => l.filter (fun n => firstCharIn n.1 msLetters)
  | some false => l.filter (fun n => !firstCharIn n.1 msLetters)
  | none => l

/-- Model of FirstNameIndex.query_category: validate the bucket, gather and
dedup, then random_constraint, vowel-count, ms and the metadata filters,
returning bare names. -/
def query_category (idx : SKey → List (String × Meta)) (length category : Nat)
    (first_vowel_pos second_vowel_pos : Nat) (random_constraint : Option String)
    (more_vowels : Option Bool) (gender origin : Option String) (common : Option Bool)
    (nickname : Option String) (rhyme ms : Option Bool) : Except String (List String) :=
  match CATEGORY_MAP category with
  | none => Except.error "category must be 1, 2, or 3"
  | some letters =>
    let dedup := dedupKeyed (·.1)
      (candidates idx length letters first_vowel_pos second_vowel_pos) []
    match rcFilter random_constraint dedup with
    | Except.error e => Except.error e
    | Except.ok dedup =>
      Except.ok (filter_names (msFilter ms (moreVowelsPairs more_vowels dedup))
        gender origin common nickname rhyme)

end FirstNameIndex

namespace PlaceIndex

/-- The metadata dict built per place by PlaceIndex._build. -/
structure Meta where
  type : String
  region : Option String
  population : Nat
  common : Bool
  deriving DecidableEq

/-- Continent codes accepted for the country region field. -/
def CONTINENTS : List String := ["AF", "AS", "EU", "NA", "OC", "SA"]

/-- One country row of the geonames dataset (fields used by _build). -/
structure CountryRow where
  name : String
  continentcode : String
  population : Nat
  deriving DecidableEq

/-- One city row of the geonames dataset (fields used by _build; the
continentcode key may be absent for cities). -/
structure CityRow where
  name : String
  continentcode : Option String
  population : Nat
  deriving DecidableEq

/-- CATEGORY_MAP of place_index (identical literals to the other two
modules). -/
def CATEGORY_MAP : Nat → Option (List Char)
  | 1 => some ['A', 'E', 'I', 'F', 'H', 'K', 'L', 'M', 'N', 'T', 'V', 'W', 'X', 'Y', 'Z']
  | 2 => some ['C', 'G', 'O', 'J', 'Q', 'S', 'U']
  | 3 => some ['B', 'D', 'P', 'R', 'J', 'U']
  | _ => none

/-- Model of _char_at (place_index): 1-based letter of the word with
spaces removed; none models the empty-string sentinel. -/
def char_at (word : String) (pos : Nat) : Option Char :=
  let clean := (stripChars [' '] word).data
  if 1 ≤ pos ∧ pos ≤ clean.length then clean[pos - 1]? else none

/-- The per-country body of PlaceIndex._build: skip multi-word names,
lowercase, key by length and vowel positions; region kept only when it is
a known continent code; common by membership in COMMON_COUNTRIES. -/
def build_country (r : CountryRow) : Option (SKey × (String × Meta)) :=
  if r.name.data.contains ' ' then none
  else
    let name := lowerStr r.name
    let vpos := vowel_positions name
    if vpos.isEmpty then none
    else
      some (⟨name.length, name.data.headD 'a', vpos.headD 0, (vpos.drop 1).headD 0⟩,
        (name,
          { type := "country"
            region := if CONTINENTS.contains r.continentcode then some r.continentcode else none
            population := r.population
            common := COMMON_COUNTRIES.contains name }))

/-- The per-city body of PlaceIndex._build: skip zero population and
multi-word names; region is the raw continentcode; common by membership in
COMMON_CITIES. -/
def build_city (r : CityRow) : Option (SKey × (String × Meta)) :=
  if r.population = 0 then none
  else if r.name.data.contains ' ' then none
  else
    let name := lowerStr r.name
    let vpos := vowel_positions name
    if vpos.isEmpty then none
    else
      some (⟨name.length, name.data.headD 'a', vpos.headD 0, (vpos.drop 1).headD 0⟩,
        (name,
          { type := "city"
            region := r.continentcode
            population := r.population
            common := COMMON_CITIES.contains name }))

/-- The bucket self.index[k] after PlaceIndex._build (countries first,
then cities, then the per-bucket dedup by name). -/
def bucket (countries : List CountryRow) (cities : List CityRow) (k : SKey) :
    List (String × Meta) :=
  dedupKeyed (·.1)
    (((countries.filterMap build_country ++ cities.filterMap build_city).filter
      (fun p => p.1 == k)).map (·.2)) []

/-- The keep predicate of PlaceIndex._filter (place_type and region use
Python truthiness; region is compared without case folding). -/
def keep (place_type region : Option String) (common : Option Bool) (m : Meta) : Bool :=
  (match place_type with | none => true | some t => decide (t = "") || decide (m.type = t)) &&
  (match region with | none => true | some rg => decide (rg = "") || decide (m.region = some rg)) &&
  (!(common == some true) || m.common) &&
  (!(common == some false) || !m.common)

/-- Model of PlaceIndex._filter: the bare names of surviving rows. -/
def filter_places (items : List (String × Meta)) (place_type region : Option String)
    (common : Option Bool) : List String :=
  (items.filter (fun p => keep place_type region common p.2)).map (·.1)

/-- Model of PlaceIndex.query: exact lookup then the metadata filters. -/
def query (idx : SKey → List (String × Meta)) (length : Nat) (first_letter : Char)
    (first_vowel_pos second_vowel_pos : Nat) (place_type region : Option String)
    (common : Option Bool) : List String :=
  filter_places (idx ⟨length, first_letter.toLower, first_vowel_pos, second_vowel_pos⟩)
    place_type region common

/-- Candidate gathering of PlaceIndex.query_category. -/
def candidates (idx : SKey → List (String × Meta)) (length : Nat) (letters : List Char)
    (v1 v2 : Nat) : List (String × Meta) :=
  (letters.map (fun L => idx ⟨length, L.toLower, v1, v2⟩)).flatten

/-- The random_constraint step of PlaceIndex.query_category. -/
def rcFilter (rc : Option String) (l : List (String × Meta)) :
    Except String (List (String × Meta)) :=
  match rc with
  | none => Except.ok l
  | some s =>
    if s == "" then Except.ok l
    else
      match parse_random_constraint s with
      | none => Except.error "random_constraint must look like \x275S\x27"
      | some pc => Except.ok (l.filter (fun n => char_at n.1 pc.1 == some pc.2))

/-- Model of PlaceIndex.query_category: validate the bucket, gather and
dedup, then random_constraint, vowel-count and the metadata filters,
returning bare names. -/
def query_category (idx : SKey → List (String × Meta)) (length category : Nat)
    (first_vowel_pos second_vowel_pos : Nat) (random_constraint : Option String)
    (more_vowels : Option Bool) (place_type region : Option String) (common : Option Bool) :
    Except String (List String) :=
  match CATEGORY_MAP category with
  | none => Except.error "category must be 1, 2, or 3"
  | some letters =>
    let dedup := dedupKeyed (·.1)
      (candidates idx length letters first_vowel_pos second_vowel_pos) []
    match rcFilter random_constraint dedup with
    | Except.error e => Except.error e
    | Except.ok dedup =>
      Except.ok (filter_places (moreVowelsPairs more_vowels dedup) place_type region common)

end PlaceIndex

/-!
Concrete instances used by the closed evaluation theorems below: tiny
datasets, label tables and indexes on which the definitions are executed.
-/

/-- The uppercase alphabet, for the bucket coverage statement. -/
def alphabetUpper : List Char :=
  ['A', 'B', 'C', 'D', 'E', 'F', 'G', 'H', 'I', 'J', 'K', 'L', 'M',
   'N', 'O', 'P', 'Q', 'R', 'S', 'T', 'U', 'V', 'W', 'X', 'Y', 'Z']

/-- An empty holdable side file. -/
def hold0 : String → Bool := fun _ => false

/-- An empty gemini label side file. -/
def lab0 : String → Option WordIndex.LabelMeta := fun _ => none

/-- A tiny JSONL dataset: snowball together with both of its halves. -/
def rowsC2 : List WordIndex.JRow :=
  [⟨"snowball", "keywords"⟩, ⟨"snow", "keywords"⟩, ⟨"ball", "keywords"⟩]

/-- A tiny first-name dataset (one row: mary). -/
def rowsMary : List FirstNameIndex.NameRow := [⟨"mary", "f", "US", 1, 50⟩]

/-- A tiny country dataset (one row: Peru). -/
def rowsPeru : List PlaceIndex.CountryRow := [⟨"Peru", "SA", 34000000⟩]

/-- The snowball record as it sits in the final index built from rowsC2. -/
def entrySnowball : WordIndex.Entry :=
  ⟨"snowball", false, "unknown", false, false, 1, some false, none, none, none⟩

/-- A six-letter entry whose key letter t lies in bucket 1. -/
def entryTemple : WordIndex.Entry :=
  ⟨"temple", true, "object-tool", true, true, 3, some false, none, none, none⟩

/-- A one-entry common-noun index holding entryTemple. -/
def idxTemple : SKey → List WordIndex.Entry :=
  fun k => if k = ⟨6, 't', 2, 6⟩ then [entryTemple] else []

/-- The positional-example entry: chairs, whose fifth letter is r. -/
def entryChairs : WordIndex.Entry :=
  ⟨"chairs", false, "furniture", true, true, 2, some false, none, none, none⟩

/-- A one-entry common-noun index holding entryChairs. -/
def idxChairs : SKey → List WordIndex.Entry :=
  fun k => if k = ⟨6, 'c', 3, 4⟩ then [entryChairs] else []

/-- Metadata of mary in the one-name index. -/
def metaMary : FirstNameIndex.Meta := ⟨"f", some "US", 1, 50, true, false, false, 0⟩

/-- A one-name index holding mary at key (4, m, 2, 4). -/
def idxMary : SKey → List (String × FirstNameIndex.Meta) :=
  fun k => if k = ⟨4, 'm', 2, 4⟩ then [("mary", metaMary)] else []

/-- Metadata of john, male variant. -/
def metaJohnM : FirstNameIndex.Meta := ⟨"m", some "US", 1, 20, true, true, false, 2⟩

/-- Metadata of john, female variant (differs from metaJohnM only in gender). -/
def metaJohnF : FirstNameIndex.Meta := ⟨"f", some "US", 1, 20, true, true, false, 2⟩

/-- A one-name index holding john with male metadata. -/
def idxJohnM : SKey → List (String × FirstNameIndex.Meta) :=
  fun k => if k = ⟨4, 'j', 2, 0⟩ then [("john", metaJohnM)] else []

/-- A one-name index holding john with female metadata. -/
def idxJohnF : SKey → List (String × FirstNameIndex.Meta) :=
  fun k => if k = ⟨4, 'j', 2, 0⟩ then [("john", metaJohnF)] else []

/-- A three-letter entry starting with j, for the bucket overlap example. -/
def entryJug : WordIndex.Entry :=
  ⟨"jug", true, "object-tool", true, true, 2, some false, none, none, none⟩

/-- A one-entry common-noun index holding entryJug at key (3, j, 2, 0). -/
def idxJug : SKey → List WordIndex.Entry :=
  fun k => if k = ⟨3, 'j', 2, 0⟩ then [entryJug] else []

/-- An always-empty common-noun index. -/
def emptyWIdx : SKey → List WordIndex.Entry := fun _ => []

/-- An always-empty first-name index. -/
def emptyNIdx : SKey → List (String × FirstNameIndex.Meta) := fun _ => []

/-- An always-empty place index. -/
def emptyPIdx : SKey → List (String × PlaceIndex.Meta) := fun _ => []

/-- The first snow record of the duplicated bucket below. -/
def dupSnow : WordIndex.Entry :=
  ⟨"snow", false, "natural-material", false, true, 4, some false, none, none, none⟩

/-- A bucket with a duplicated word (differing metadata), for the dedup
specification example. -/
def dupBucket : List WordIndex.Entry :=
  [dupSnow,
   ⟨"ball", true, "object-tool", true, true, 3, some false, none, none, none⟩,
   ⟨"snow", true, "unknown", false, false, 1, some true, none, none, none⟩]

/-!
Helper lemmas about the shared combinators.
-/

theorem dedupKeyed_sublist {α : Type} (key : α → String) :
    ∀ (l : List α) (seen : List String), (dedupKeyed key l seen).Sublist l := by
  intro l
  induction l with
  | nil => intro seen; simp [dedupKeyed]
  | cons x xs ih =>
    intro seen
    simp only [dedupKeyed]
    by_cases h : key x ∈ seen
    · rw [if_pos h]
      exact List.Sublist.cons _ (ih seen)
    · rw [if_neg h]
      exact List.Sublist.cons₂ _ (ih (key x :: seen))

theorem dedupKeyed_key_not_seen {α : Type} (key : α → String) :
    ∀ {l : List α} {seen : List String} {x : α},
      x ∈ dedupKeyed key l seen → key x ∉ seen := by
  intro l
  induction l with
  | nil => intro seen x hx; simp [dedupKeyed] at hx
  | cons a as ih =>
    intro seen x hx
    simp only [dedupKeyed] at hx
    by_cases h : key a ∈ seen
    · rw [if_pos h] at hx
      exact ih hx
    · rw [if_neg h] at hx
      rcases List.mem_cons.mp hx with rfl | hmem
      · exact h
      · intro hc
        exact ih hmem (List.mem_cons_of_mem _ hc)

theorem dedupKeyed_nodup {α : Type} (key : α → String) :
    ∀ (l : List α) (seen : List String), ((dedupKeyed key l seen).map key).Nodup := by
  intro l
  induction l with
  | nil => intro seen; simp [dedupKeyed]
  | cons a as ih =>
    intro seen
    simp only [dedupKeyed]
    by_cases h : key a ∈ seen
    · rw [if_pos h]; exact ih seen
    · rw [if_neg h]
      simp only [List.map_cons, List.nodup_cons]
      refine ⟨?_, ih (key a :: seen)⟩
      intro hmem
      rcases List.mem_map.mp hmem with ⟨y, hy, hkey⟩
      exact dedupKeyed_key_not_seen key hy (by rw [hkey]; exact List.mem_cons_self _ _)

theorem dedupKeyed_covers {α : Type} (key : α → String) :
    ∀ {l : List α} {seen : List String} {x : α}, x ∈ l → key x ∉ seen →
      ∃ y ∈ dedupKeyed key l seen, key y = key x := by
  intro l
  induction l with
  | nil => intro seen x hx _; simp at hx
  | cons a as ih =>
    intro seen x hx hseen
    simp only [dedupKeyed]
    by_cases h : key a ∈ seen
    · rw [if_pos h]
      rcases List.mem_cons.mp hx with rfl | hmem
      · exact absurd h hseen
      · exact ih hmem hseen
    · rw [if_neg h]
      by_cases hk : key x = key a
      · exact ⟨a, List.mem_cons_self _ _, hk.symm⟩
      · rcases List.mem_cons.mp hx with rfl | hmem
        · exact absurd rfl hk
        · have hx2 : key x ∉ key a :: seen := by
            intro hc
            rcases List.mem_cons.mp hc with h1 | h1
            · exact hk h1
            · exact hseen h1
          rcases ih hmem hx2 with ⟨y, hy, hkey⟩
          exact ⟨y, List.mem_cons_of_mem _ hy, hkey⟩

theorem dedupKeyed_find? {α : Type} (key : α → String) :
    ∀ {l : List α} {seen : List String} {y : α}, y ∈ dedupKeyed key l seen →
      l.find? (fun z => key z == key y) = some y := by
  intro l
  induction l with
  | nil => intro seen y hy; simp [dedupKeyed] at hy
  | cons a as ih =>
    intro seen y hy
    simp only [dedupKeyed] at hy
    by_cases h : key a ∈ seen
    · rw [if_pos h] at hy
      have hne : ¬(key a == key y) = true := by
        simp only [beq_iff_eq]
        intro he
        exact dedupKeyed_key_not_seen key hy (he ▸ h)
      rw [@List.find?_cons_of_neg _ (fun z => key z == key y) a as hne]
      exact ih hy
    · rw [if_neg h] at hy
      rcases List.mem_cons.mp hy with rfl | hmem
      · rw [@List.find?_cons_of_pos _ (fun z => key z == key y) y as (by simp)]
      · have hny := dedupKeyed_key_not_seen key hmem
        have hne : ¬(key a == key y) = true := by
          simp only [beq_iff_eq]
          intro he
          exact hny (he ▸ List.mem_cons_self _ _)
        rw [@List.find?_cons_of_neg _ (fun z => key z == key y) a as hne]
        exact ih hmem

theorem vowel_positions_aux_lt :
    ∀ (cs : List Char) (i x : Nat), x ∈ vowel_positions_aux i cs → i < x := by
  intro cs
  induction cs with
  | nil => intro i x hx; simp [vowel_positions_aux] at hx
  | cons c cs ih =>
    intro i x hx
    simp only [vowel_positions_aux] at hx
    by_cases h : VOWELS.contains c
    · rw [if_pos h] at hx
      rcases List.mem_cons.mp hx with rfl | hmem
      · omega
      · have := ih (i + 1) x hmem; omega
    · rw [if_neg h] at hx
      have := ih (i + 1) x hx; omega

theorem vowel_positions_aux_pairwise :
    ∀ (cs : List Char) (i : Nat), (vowel_positions_aux i cs).Pairwise (· < ·) := by
  intro cs
  induction cs with
  | nil => intro i; simp [vowel_positions_aux]
  | cons c cs ih =>
    intro i
    simp only [vowel_positions_aux]
    by_cases h : VOWELS.contains c
    · rw [if_pos h]
      exact List.pairwise_cons.mpr ⟨fun x hx => vowel_positions_aux_lt cs (i + 1) x hx, ih (i + 1)⟩
    · rw [if_neg h]; exact ih (i + 1)

theorem vowel_positions_v1_lt_v2 {w : String} {v1 : Nat} {rest : List Nat}
    (h : vowel_positions w = v1 :: rest) (h2 : rest.headD 0 ≠ 0) : v1 < rest.headD 0 := by
  rcases rest with _ | ⟨v2, t⟩
  · simp at h2
  · have hp := vowel_positions_aux_pairwise (upperStr w).data 0
    rw [show vowel_positions_aux 0 (upperStr w).data = vowel_positions w from rfl, h] at hp
    simpa using (List.pairwise_cons.mp hp).1 v2 (List.mem_cons_self _ _)

/-!
Helper lemmas about the word-index pipeline.
-/

theorem vowel_positions_headD_lt {w : String}
    (h2 : ((vowel_positions w).drop 1).headD 0 ≠ 0) :
    (vowel_positions w).headD 0 < ((vowel_positions w).drop 1).headD 0 := by
  cases hv : vowel_positions w with
  | nil => rw [hv] at h2; simp at h2
  | cons v1 rest =>
    rw [hv] at h2
    simp only [List.drop_succ_cons, List.drop_zero, List.headD_cons] at h2 ⊢
    exact vowel_positions_v1_lt_v2 hv h2

theorem add_compound_flag_word (ns : List String) (e : WordIndex.Entry) :
    (WordIndex.add_compound_flag ns e).word = e.word := by
  unfold WordIndex.add_compound_flag
  split
  · rfl
  · split <;> rfl

theorem add_compound_flag_preset (ns : List String) (e : WordIndex.Entry)
    (h : e.compound.isSome) : WordIndex.add_compound_flag ns e = e := by
  unfold WordIndex.add_compound_flag
  rw [if_pos h]

theorem apply_gemini_labels_word (labels : String → Option WordIndex.LabelMeta)
    (e : WordIndex.Entry) : (WordIndex.apply_gemini_labels labels e).word = e.word := by
  unfold WordIndex.apply_gemini_labels
  split <;> rfl

theorem apply_gemini_labels_compound (labels : String → Option WordIndex.LabelMeta)
    (e : WordIndex.Entry) : (WordIndex.apply_gemini_labels labels e).compound = e.compound := by
  unfold WordIndex.apply_gemini_labels
  split <;> rfl

theorem mapped_words_eq (ns : List String) (labels : String → Option WordIndex.LabelMeta)
    (d : List WordIndex.Entry) :
    (((d.map (WordIndex.add_compound_flag ns)).map
      (WordIndex.apply_gemini_labels labels)).map (fun e => e.word)) =
      d.map (fun e => e.word) := by
  induction d with
  | nil => rfl
  | cons a t ih =>
    simp only [List.map_cons, apply_gemini_labels_word, add_compound_flag_word, ih]

theorem process_subject_spec {hold : String → Bool} {rows : List WordIndex.JRow}
    {subj : String} {k : SKey} {e : WordIndex.Entry}
    (h : WordIndex.process_subject hold rows subj = some (k, e)) :
    (classify_subject subj).1 ≠ "person" ∧
    e.word = stripChars ['-'] subj ∧
    e.cat = (classify_subject subj).1 ∧
    e.compound = some (subj.data.contains ' ' || subj.data.contains '-') ∧
    k.v1 = (vowel_positions (stripChars [' ', '-'] subj)).headD 0 ∧
    k.v2 = ((vowel_positions (stripChars [' ', '-'] subj)).drop 1).headD 0 := by
  simp only [WordIndex.process_subject] at h
  by_cases h1 : (vowel_positions (stripChars [' ', '-'] subj)).isEmpty = true
  · rw [if_pos h1] at h; simp at h
  · rw [if_neg h1] at h
    by_cases h2 : ((classify_subject subj).1 == "person") = true
    · rw [if_pos h2] at h; simp at h
    · rw [if_neg h2] at h
      rw [Option.some.injEq, Prod.mk.injEq] at h
      obtain ⟨hk, he⟩ := h
      subst hk
      subst he
      refine ⟨?_, rfl, rfl, rfl, rfl, rfl⟩
      simpa using h2

theorem mem_rawBucket {hold : String → Bool} {rows : List WordIndex.JRow} {k : SKey}
    {e : WordIndex.Entry} (h : e ∈ WordIndex.rawBucket hold rows k) :
    ∃ subj ∈ WordIndex.all_subjects rows,
      WordIndex.process_subject hold rows subj = some (k, e) := by
  unfold WordIndex.rawBucket at h
  rcases List.mem_map.mp h with ⟨p, hp, hsnd⟩
  have hmem := (List.mem_filter.mp hp).1
  have hkey := (List.mem_filter.mp hp).2
  rw [beq_iff_eq] at hkey
  rcases List.mem_filterMap.mp (by exact hmem) with ⟨subj, hsubj, hproc⟩
  refine ⟨subj, hsubj, ?_⟩
  obtain ⟨k0, e0⟩ := p
  simp only at hsnd hkey
  subst hsnd
  subst hkey
  exact hproc

theorem mem_finalBucket {hold : String → Bool} {labels : String → Option WordIndex.LabelMeta}
    {rows : List WordIndex.JRow} {k : SKey} {e : WordIndex.Entry}
    (h : e ∈ WordIndex.finalBucket hold labels rows k) :
    e.cat ∉ WordIndex.excluded_categories ∧
    ∃ subj ∈ WordIndex.all_subjects rows,
      (classify_subject subj).1 ≠ "person" ∧
      e.word = stripChars ['-'] subj ∧
      e.compound = some (subj.data.contains ' ' || subj.data.contains '-') ∧
      k.v1 = (vowel_positions (stripChars [' ', '-'] subj)).headD 0 ∧
      k.v2 = ((vowel_positions (stripChars [' ', '-'] subj)).drop 1).headD 0 := by
  unfold WordIndex.finalBucket WordIndex.filter_excluded at h
  have hmem := (List.mem_filter.mp h).1
  have hcat := of_decide_eq_true ((List.mem_filter.mp h).2)
  refine ⟨hcat, ?_⟩
  rcases List.mem_map.mp hmem with ⟨e1, he1, hge⟩
  rcases List.mem_map.mp he1 with ⟨e2, he2, hfe⟩
  have he2raw : e2 ∈ WordIndex.rawBucket hold rows k :=
    (dedupKeyed_sublist (fun x => x.word) _ _).subset he2
  rcases mem_rawBucket he2raw with ⟨subj, hsubj, hproc⟩
  rcases process_subject_spec hproc with ⟨hper, hword, hcat2, hcomp, hv1, hv2⟩
  have hpre : WordIndex.add_compound_flag (WordIndex.noun_set hold rows) e2 = e2 :=
    add_compound_flag_preset _ _ (by rw [hcomp]; rfl)
  have heword : e.word = e2.word := by
    rw [← hge, ← hfe, hpre, apply_gemini_labels_word]
  have hecomp : e.compound = e2.compound := by
    rw [← hge, ← hfe, hpre, apply_gemini_labels_compound]
  exact ⟨subj, hsubj, hper, heword.trans hword, hecomp.trans hcomp, hv1, hv2⟩

theorem finalBucket_words_nodup (hold : String → Bool)
    (labels : String → Option WordIndex.LabelMeta) (rows : List WordIndex.JRow) (k : SKey) :
    ((WordIndex.finalBucket hold labels rows k).map (fun e => e.word)).Nodup := by
  unfold WordIndex.finalBucket WordIndex.filter_excluded
  apply List.Nodup.sublist (List.Sublist.map _ (List.filter_sublist _))
  rw [mapped_words_eq]
  exact dedupKeyed_nodup _ _ _

theorem holdableFilter_sublist (hd : Option Bool) (l : List WordIndex.Entry) :
    (WordIndex.holdableFilter hd l).Sublist l := by
  cases hd with
  | none => exact List.Sublist.refl l
  | some b => cases b <;> exact List.filter_sublist l

theorem moreVowelsFilter_sublist (mv : Option Bool) (l : List WordIndex.Entry) :
    (WordIndex.moreVowelsFilter mv l).Sublist l := by
  cases mv with
  | none => exact List.Sublist.refl l
  | some b => cases b <;> exact List.filter_sublist l

theorem compoundFilter_sublist (cp : Option Bool) (l : List WordIndex.Entry) :
    (WordIndex.compoundFilter cp l).Sublist l := by
  cases cp with
  | none => exact List.Sublist.refl l
  | some b => cases b <;> exact List.filter_sublist l

theorem rcFilter_ok_sublist {rc : Option String} {l out : List WordIndex.Entry}
    (h : WordIndex.rcFilter rc l = Except.ok out) : out.Sublist l := by
  cases rc with
  | none =>
    simp only [WordIndex.rcFilter, Except.ok.injEq] at h
    subst h; exact List.Sublist.refl l
  | some s =>
    simp only [WordIndex.rcFilter] at h
    by_cases he : (s == "") = true
    · rw [if_pos he] at h
      rw [Except.ok.injEq] at h
      subst h; exact List.Sublist.refl l
    · rw [if_neg he] at h
      cases hp : parse_random_constraint s with
      | none => rw [hp] at h; cases h
      | some pc =>
        rw [hp] at h
        rw [Except.ok.injEq] at h
        subst h; exact List.filter_sublist l

theorem query_category_ok {idx : SKey → List WordIndex.Entry}
    {len cat v1 v2 : Nat} {rc : Option String} {mv hd cp : Option Bool}
    {out : List WordIndex.Entry}
    (h : WordIndex.query_category idx len cat v1 v2 rc mv hd cp = Except.ok out) :
    ∃ letters, WordIndex.CATEGORY_MAP cat = some letters ∧
      out.Sublist (dedupKeyed (fun e => e.word)
        (WordIndex.candidates idx len letters v1 v2) []) := by
  unfold WordIndex.query_category at h
  cases hc : WordIndex.CATEGORY_MAP cat with
  | none => rw [hc] at h; cases h
  | some letters =>
    rw [hc] at h
    refine ⟨letters, rfl, ?_⟩
    simp only at h
    cases hrc : WordIndex.rcFilter rc (WordIndex.holdableFilter hd
        (dedupKeyed (fun e => e.word) (WordIndex.candidates idx len letters v1 v2) [])) with
    | error msg => rw [hrc] at h; cases h
    | ok mid =>
      rw [hrc] at h
      rw [Except.ok.injEq] at h
      subst h
      exact ((compoundFilter_sublist cp _).trans (moreVowelsFilter_sublist mv _)).trans
        ((rcFilter_ok_sublist hrc).trans (holdableFilter_sublist hd _))

theorem query_category_no_filters {idx : SKey → List WordIndex.Entry}
    {len cat v1 v2 : Nat} {letters : List Char}
    (hc : WordIndex.CATEGORY_MAP cat = some letters) :
    WordIndex.query_category idx len cat v1 v2 none none none none =
      Except.ok (dedupKeyed (fun e => e.word)
        (WordIndex.candidates idx len letters v1 v2) []) := by
  unfold WordIndex.query_category
  rw [hc]
  rfl

theorem candidates_mem {idx : SKey → List WordIndex.Entry} {len : Nat}
    {letters : List Char} {v1 v2 : Nat} {e : WordIndex.Entry}
    (h : e ∈ WordIndex.candidates idx len letters v1 v2) :
    ∃ L ∈ letters, e ∈ idx ⟨len, L.toLower, v1, v2⟩ := by
  unfold WordIndex.candidates at h
  rcases List.mem_flatten.mp h with ⟨l, hl, hel⟩
  rcases List.mem_map.mp hl with ⟨L, hL, rfl⟩
  exact ⟨L, hL, hel⟩

theorem mem_candidates {idx : SKey → List WordIndex.Entry} {len : Nat}
    {letters : List Char} {v1 v2 : Nat} {L : Char} {e : WordIndex.Entry}
    (hL : L ∈ letters) (he : e ∈ idx ⟨len, L.toLower, v1, v2⟩) :
    e ∈ WordIndex.candidates idx len letters v1 v2 := by
  unfold WordIndex.candidates
  exact List.mem_flatten.mpr ⟨idx ⟨len, L.toLower, v1, v2⟩,
    List.mem_map.mpr ⟨L, hL, rfl⟩, he⟩

/-!
Helper lemmas about the first-name and place pipelines, and about the
category maps.
-/

theorem wi_category_map_eq_none {cat : Nat} (h1 : cat ≠ 1) (h2 : cat ≠ 2) (h3 : cat ≠ 3) :
    WordIndex.CATEGORY_MAP cat = none := by
  match cat, h1, h2, h3 with
  | 0, _, _, _ => rfl
  | 1, h1, _, _ => exact absurd rfl h1
  | 2, _, h2, _ => exact absurd rfl h2
  | 3, _, _, h3 => exact absurd rfl h3
  | (n + 4), _, _, _ => rfl

theorem fn_category_map_eq_none {cat : Nat} (h1 : cat ≠ 1) (h2 : cat ≠ 2) (h3 : cat ≠ 3) :
    FirstNameIndex.CATEGORY_MAP cat = none := by
  match cat, h1, h2, h3 with
  | 0, _, _, _ => rfl
  | 1, h1, _, _ => exact absurd rfl h1
  | 2, _, h2, _ => exact absurd rfl h2
  | 3, _, _, h3 => exact absurd rfl h3
  | (n + 4), _, _, _ => rfl

theorem pl_category_map_eq_none {cat : Nat} (h1 : cat ≠ 1) (h2 : cat ≠ 2) (h3 : cat ≠ 3) :
    PlaceIndex.CATEGORY_MAP cat = none := by
  match cat, h1, h2, h3 with
  | 0, _, _, _ => rfl
  | 1, h1, _, _ => exact absurd rfl h1
  | 2, _, h2, _ => exact absurd rfl h2
  | 3, _, _, h3 => exact absurd rfl h3
  | (n + 4), _, _, _ => rfl

theorem moreVowelsPairs_sublist {β : Type} (mv : Option Bool) (l : List (String × β)) :
    (moreVowelsPairs mv l).Sublist l := by
  cases mv with
  | none => exact List.Sublist.refl l
  | some b => cases b <;> exact List.filter_sublist l

theorem msFilter_sublist (ms : Option Bool) (l : List (String × FirstNameIndex.Meta)) :
    (FirstNameIndex.msFilter ms l).Sublist l := by
  cases ms with
  | none => exact List.Sublist.refl l
  | some b => cases b <;> exact List.filter_sublist l

theorem fn_rcFilter_ok_sublist {rc : Option String} {l out : List (String × FirstNameIndex.Meta)}
    (h : FirstNameIndex.rcFilter rc l = Except.ok out) : out.Sublist l := by
  cases rc with
  | none =>
    simp only [FirstNameIndex.rcFilter, Except.ok.injEq] at h
    subst h; exact List.Sublist.refl l
  | some s =>
    simp only [FirstNameIndex.rcFilter] at h
    by_cases he : (s == "") = true
    · rw [if_pos he] at h
      rw [Except.ok.injEq] at h
      subst h; exact List.Sublist.refl l
    · rw [if_neg he] at h
      cases hp : parse_random_constraint s with
      | none => rw [hp] at h; cases h
      | some pc =>
        rw [hp] at h
        rw [Except.ok.injEq] at h
        subst h; exact List.filter_sublist l

theorem pl_rcFilter_ok_sublist {rc : Option String} {l out : List (String × PlaceIndex.Meta)}
    (h : PlaceIndex.rcFilter rc l = Except.ok out) : out.Sublist l := by
  cases rc with
  | none =>
    simp only [PlaceIndex.rcFilter, Except.ok.injEq] at h
    subst h; exact List.Sublist.refl l
  | some s =>
    simp only [PlaceIndex.rcFilter] at h
    by_cases he : (s == "") = true
    · rw [if_pos he] at h
      rw [Except.ok.injEq] at h
      subst h; exact List.Sublist.refl l
    · rw [if_neg he] at h
      cases hp : parse_random_constraint s with
      | none => rw [hp] at h; cases h
      | some pc =>
        rw [hp] at h
        rw [Except.ok.injEq] at h
        subst h; exact List.filter_sublist l

theorem filter_names_mem {items : List (String × FirstNameIndex.Meta)}
    {g o : Option String} {c : Option Bool} {nk : Option String} {r : Option Bool} {s : String}
    (h : s ∈ FirstNameIndex.filter_names items g o c nk r) : ∃ m, (s, m) ∈ items := by
  unfold FirstNameIndex.filter_names at h
  rcases List.mem_map.mp h with ⟨⟨n, m⟩, hp, hfst⟩
  simp only at hfst
  subst hfst
  exact ⟨m, (List.mem_filter.mp hp).1⟩

theorem filter_places_mem {items : List (String × PlaceIndex.Meta)}
    {t rg : Option String} {c : Option Bool} {s : String}
    (h : s ∈ PlaceIndex.filter_places items t rg c) : ∃ m, (s, m) ∈ items := by
  unfold PlaceIndex.filter_places at h
  rcases List.mem_map.mp h with ⟨⟨n, m⟩, hp, hfst⟩
  simp only at hfst
  subst hfst
  exact ⟨m, (List.mem_filter.mp hp).1⟩

theorem fn_candidates_mem {idx : SKey → List (String × FirstNameIndex.Meta)} {len : Nat}
    {letters : List Char} {v1 v2 : Nat} {p : String × FirstNameIndex.Meta}
    (h : p ∈ FirstNameIndex.candidates idx len letters v1 v2) :
    ∃ L ∈ letters, p ∈ idx ⟨len, L.toLower, v1, v2⟩ := by
  unfold FirstNameIndex.candidates at h
  rcases List.mem_flatten.mp h with ⟨l, hl, hel⟩
  rcases List.mem_map.mp hl with ⟨L, hL, rfl⟩
  exact ⟨L, hL, hel⟩

theorem pl_candidates_mem {idx : SKey → List (String × PlaceIndex.Meta)} {len : Nat}
    {letters : List Char} {v1 v2 : Nat} {p : String × PlaceIndex.Meta}
    (h : p ∈ PlaceIndex.candidates idx len letters v1 v2) :
    ∃ L ∈ letters, p ∈ idx ⟨len, L.toLower, v1, v2⟩ := by
  unfold PlaceIndex.candidates at h
  rcases List.mem_flatten.mp h with ⟨l, hl, hel⟩
  rcases List.mem_map.mp hl with ⟨L, hL, rfl⟩
  exact ⟨L, hL, hel⟩

theorem fn_query_category_ok {idx : SKey → List (String × FirstNameIndex.Meta)}
    {len cat v1 v2 : Nat} {rc : Option String} {mv : Option Bool} {g o : Option String}
    {c : Option Bool} {nk : Option String} {r ms : Option Bool} {out : List String}
    (h : FirstNameIndex.query_category idx len cat v1 v2 rc mv g o c nk r ms =
      Except.ok out) :
    ∃ letters, FirstNameIndex.CATEGORY_MAP cat = some letters ∧
      ∀ s ∈ out, ∃ m, (s, m) ∈ FirstNameIndex.candidates idx len letters v1 v2 := by
  unfold FirstNameIndex.query_category at h
  cases hc : FirstNameIndex.CATEGORY_MAP cat with
  | none => rw [hc] at h; cases h
  | some letters =>
    rw [hc] at h
    refine ⟨letters, rfl, ?_⟩
    simp only at h
    cases hrc : FirstNameIndex.rcFilter rc
        (dedupKeyed (fun p : String × FirstNameIndex.Meta => p.1)
          (FirstNameIndex.candidates idx len letters v1 v2) []) with
    | error msg => rw [hrc] at h; cases h
    | ok mid =>
      rw [hrc] at h
      rw [Except.ok.injEq] at h
      subst h
      intro s hs
      rcases filter_names_mem hs with ⟨m, hm⟩
      have : (s, m) ∈ mid :=
        ((msFilter_sublist ms _).trans (moreVowelsPairs_sublist mv _)).subset hm
      exact ⟨m, ((fn_rcFilter_ok_sublist hrc).trans
        (dedupKeyed_sublist (fun p : String × FirstNameIndex.Meta => p.1) _ _)).subset this⟩

theorem pl_query_category_ok {idx : SKey → List (String × PlaceIndex.Meta)}
    {len cat v1 v2 : Nat} {rc : Option String} {mv : Option Bool} {t rg : Option String}
    {c : Option Bool} {out : List String}
    (h : PlaceIndex.query_category idx len cat v1 v2 rc mv t rg c = Except.ok out) :
    ∃ letters, PlaceIndex.CATEGORY_MAP cat = some letters ∧
      ∀ s ∈ out, ∃ m, (s, m) ∈ PlaceIndex.candidates idx len letters v1 v2 := by
  unfold PlaceIndex.query_category at h
  cases hc : PlaceIndex.CATEGORY_MAP cat with
  | none => rw [hc] at h; cases h
  | some letters =>
    rw [hc] at h
    refine ⟨letters, rfl, ?_⟩
    simp only at h
    cases hrc : PlaceIndex.rcFilter rc
        (dedupKeyed (fun p : String × PlaceIndex.Meta => p.1)
          (PlaceIndex.candidates idx len letters v1 v2) []) with
    | error msg => rw [hrc] at h; cases h
    | ok mid =>
      rw [hrc] at h
      rw [Except.ok.injEq] at h
      subst h
      intro s hs
      rcases filter_places_mem hs with ⟨m, hm⟩
      have : (s, m) ∈ mid := (moreVowelsPairs_sublist mv _).subset hm
      exact ⟨m, ((pl_rcFilter_ok_sublist hrc).trans
        (dedupKeyed_sublist (fun p : String × PlaceIndex.Meta => p.1) _ _)).subset this⟩

theorem fn_build_row_key {ns : List String} {nc : String → Nat} {rs : List String}
    {r : FirstNameIndex.NameRow} {k : SKey} {pr : String × FirstNameIndex.Meta}
    (h : FirstNameIndex.build_row ns nc rs r = some (k, pr)) :
    k.v1 = (vowel_positions r.name).headD 0 ∧
    k.v2 = ((vowel_positions r.name).drop 1).headD 0 := by
  simp only [FirstNameIndex.build_row] at h
  by_cases h1 : r.name.data.contains ' ' = true
  · rw [if_pos h1] at h; simp at h
  · rw [if_neg h1] at h
    by_cases h2 : (vowel_positions r.name).isEmpty = true
    · rw [if_pos h2] at h; simp at h
    · rw [if_neg h2] at h
      rw [Option.some.injEq, Prod.mk.injEq] at h
      obtain ⟨hk, _⟩ := h
      subst hk
      exact ⟨rfl, rfl⟩

theorem fn_bucket_mem {ns : List String} {nc : String → Nat} {rs : List String}
    {rows : List FirstNameIndex.NameRow} {k : SKey} {pr : String × FirstNameIndex.Meta}
    (h : pr ∈ FirstNameIndex.bucket ns nc rs rows k) :
    ∃ r ∈ rows, FirstNameIndex.build_row ns nc rs r = some (k, pr) := by
  unfold FirstNameIndex.bucket at h
  have h2 := (dedupKeyed_sublist (fun p : String × FirstNameIndex.Meta => p.1) _ _).subset h
  rcases List.mem_map.mp h2 with ⟨p, hp, hsnd⟩
  have hmem := (List.mem_filter.mp hp).1
  have hkey := (List.mem_filter.mp hp).2
  rw [beq_iff_eq] at hkey
  rcases List.mem_filterMap.mp hmem with ⟨r, hr, hbuild⟩
  obtain ⟨k0, p0⟩ := p
  simp only at hsnd hkey
  subst hsnd
  subst hkey
  exact ⟨r, hr, hbuild⟩

theorem pl_build_country_key {r : PlaceIndex.CountryRow} {k : SKey}
    {pr : String × PlaceIndex.Meta}
    (h : PlaceIndex.build_country r = some (k, pr)) :
    k.v1 = (vowel_positions (lowerStr r.name)).headD 0 ∧
    k.v2 = ((vowel_positions (lowerStr r.name)).drop 1).headD 0 := by
  simp only [PlaceIndex.build_country] at h
  by_cases h1 : r.name.data.contains ' ' = true
  · rw [if_pos h1] at h; simp at h
  · rw [if_neg h1] at h
    by_cases h2 : (vowel_positions (lowerStr r.name)).isEmpty = true
    · rw [if_pos h2] at h; simp at h
    · rw [if_neg h2] at h
      rw [Option.some.injEq, Prod.mk.injEq] at h
      obtain ⟨hk, _⟩ := h
      subst hk
      exact ⟨rfl, rfl⟩

theorem pl_build_city_key {r : PlaceIndex.CityRow} {k : SKey}
    {pr : String × PlaceIndex.Meta}
    (h : PlaceIndex.build_city r = some (k, pr)) :
    k.v1 = (vowel_positions (lowerStr r.name)).headD 0 ∧
    k.v2 = ((vowel_positions (lowerStr r.name)).drop 1).headD 0 := by
  simp only [PlaceIndex.build_city] at h
  by_cases h0 : r.population = 0
  · rw [if_pos h0] at h; simp at h
  · rw [if_neg h0] at h
    by_cases h1 : r.name.data.contains ' ' = true
    · rw [if_pos h1] at h; simp at h
    · rw [if_neg h1] at h
      by_cases h2 : (vowel_positions (lowerStr r.name)).isEmpty = true
      · rw [if_pos h2] at h; simp at h
      · rw [if_neg h2] at h
        rw [Option.some.injEq, Prod.mk.injEq] at h
        obtain ⟨hk, _⟩ := h
        subst hk
        exact ⟨rfl, rfl⟩

theorem pl_bucket_mem {countries : List PlaceIndex.CountryRow}
    {cities : List PlaceIndex.CityRow} {k : SKey} {pr : String × PlaceIndex.Meta}
    (h : pr ∈ PlaceIndex.bucket countries cities k) :
    (∃ r ∈ countries, PlaceIndex.build_country r = some (k, pr)) ∨
    (∃ r ∈ cities, PlaceIndex.build_city r = some (k, pr)) := by
  unfold PlaceIndex.bucket at h
  have h2 := (dedupKeyed_sublist (fun p : String × PlaceIndex.Meta => p.1) _ _).subset h
  rcases List.mem_map.mp h2 with ⟨p, hp, hsnd⟩
  have hmem := (List.mem_filter.mp hp).1
  have hkey := (List.mem_filter.mp hp).2
  rw [beq_iff_eq] at hkey
  obtain ⟨k0, p0⟩ := p
  simp only at hsnd hkey
  subst hsnd
  subst hkey
  rcases List.mem_append.mp hmem with hc | hc
  · rcases List.mem_filterMap.mp hc with ⟨r, hr, hbuild⟩
    exact Or.inl ⟨r, hr, hbuild⟩
  · rcases List.mem_filterMap.mp hc with ⟨r, hr, hbuild⟩
    exact Or.inr ⟨r, hr, hbuild⟩

/-!
Claim theorems.
-/

/-- Claim C10: WordIndex.query ignores its category and holdable parameters
entirely: for every index, length, first letter and vowel positions, and
all values of category and holdable, it returns the same list as the call
with category 0 and holdable None. -/
theorem C10_query_ignores_category_holdable
    (idx : SKey → List WordIndex.Entry) (length : Nat) (first_letter : Char)
    (v1 v2 category : Nat) (holdable : Option Bool) :
    WordIndex.query idx length first_letter v1 v2 category holdable =
      WordIndex.query idx length first_letter v1 v2 0 none := rfl

/-- Claim C7: for every entry indexed in any of the three domain indexes,
if the structural key has a nonzero second vowel position then the first
vowel position is strictly smaller. -/
theorem C7_structural_key_vowel_order :
    (∀ hold labels rows k, WordIndex.finalBucket hold labels rows k ≠ [] →
       k.v2 ≠ 0 → k.v1 < k.v2) ∧
    (∀ ns nc rs rows k, FirstNameIndex.bucket ns nc rs rows k ≠ [] →
       k.v2 ≠ 0 → k.v1 < k.v2) ∧
    (∀ countries cities k, PlaceIndex.bucket countries cities k ≠ [] →
       k.v2 ≠ 0 → k.v1 < k.v2) := by
  refine ⟨?_, ?_, ?_⟩
  · intro hold labels rows k hne h2
    rcases List.exists_mem_of_ne_nil _ hne with ⟨e, he⟩
    rcases (mem_finalBucket he).2 with ⟨subj, _, _, _, _, hv1, hv2⟩
    rw [hv1, hv2]
    exact vowel_positions_headD_lt (by rw [← hv2]; exact h2)
  · intro ns nc rs rows k hne h2
    rcases List.exists_mem_of_ne_nil _ hne with ⟨p, hp⟩
    rcases fn_bucket_mem hp with ⟨r, _, hbuild⟩
    rcases fn_build_row_key hbuild with ⟨hv1, hv2⟩
    rw [hv1, hv2]
    exact vowel_positions_headD_lt (by rw [← hv2]; exact h2)
  · intro countries cities k hne h2
    rcases List.exists_mem_of_ne_nil _ hne with ⟨p, hp⟩
    rcases pl_bucket_mem hp with hc | hc
    · rcases hc with ⟨r, _, hbuild⟩
      rcases pl_build_country_key hbuild with ⟨hv1, hv2⟩
      rw [hv1, hv2]
      exact vowel_positions_headD_lt (by rw [← hv2]; exact h2)
    · rcases hc with ⟨r, _, hbuild⟩
      rcases pl_build_city_key hbuild with ⟨hv1, hv2⟩
      rw [hv1, hv2]
      exact vowel_positions_headD_lt (by rw [← hv2]; exact h2)

/-- Witness for C7 at concrete builds: the snowball key (8, s, 3, 6), the
mary key (4, m, 2, 4) and the peru key (4, p, 2, 4). -/
theorem C7_witness : (3 : Nat) < 6 ∧ (2 : Nat) < 4 ∧ (2 : Nat) < 4 := by
  refine ⟨?_, ?_, ?_⟩
  · exact C7_structural_key_vowel_order.1 hold0 lab0 rowsC2 ⟨8, 's', 3, 6⟩
      (by decide) (by decide)
  · exact C7_structural_key_vowel_order.2.1 [] (fun _ => 0) [] rowsMary ⟨4, 'm', 2, 4⟩
      (by decide) (by decide)
  · exact C7_structural_key_vowel_order.2.2 rowsPeru [] ⟨4, 'p', 2, 4⟩
      (by decide) (by decide)

/-- Claim C4: every query_category call, on each of the three domain
indexes, with a bucket id outside 1, 2, 3 returns an explicit caller
error, for every combination of the other parameters (never a silent
empty list). -/
theorem C4_invalid_category_error
    (widx : SKey → List WordIndex.Entry)
    (nidx : SKey → List (String × FirstNameIndex.Meta))
    (pidx : SKey → List (String × PlaceIndex.Meta))
    (length v1 v2 category : Nat)
    (h1 : category ≠ 1) (h2 : category ≠ 2) (h3 : category ≠ 3)
    (rc : Option String) (mv hd cp : Option Bool)
    (g o : Option String) (c : Option Bool) (nk : Option String) (r ms : Option Bool)
    (t rg : Option String) :
    WordIndex.query_category widx length category v1 v2 rc mv hd cp =
      Except.error ("Unknown category " ++ toString category ++ ". Must be 1, 2, or 3.") ∧
    FirstNameIndex.query_category nidx length category v1 v2 rc mv g o c nk r ms =
      Except.error "category must be 1, 2, or 3" ∧
    PlaceIndex.query_category pidx length category v1 v2 rc mv t rg c =
      Except.error "category must be 1, 2, or 3" := by
  refine ⟨?_, ?_, ?_⟩
  · unfold WordIndex.query_category
    rw [wi_category_map_eq_none h1 h2 h3]
  · unfold FirstNameIndex.query_category
    rw [fn_category_map_eq_none h1 h2 h3]
  · unfold PlaceIndex.query_category
    rw [pl_category_map_eq_none h1 h2 h3]

/-- Witness for C4 at bucket id 4 on empty indexes. -/
theorem C4_witness :
    WordIndex.query_category emptyWIdx 5 4 1 0 none none none none =
      Except.error ("Unknown category " ++ toString 4 ++ ". Must be 1, 2, or 3.") ∧
    FirstNameIndex.query_category emptyNIdx 5 4 1 0 none none none none none none none none =
      Except.error "category must be 1, 2, or 3" ∧
    PlaceIndex.query_category emptyPIdx 5 4 1 0 none none none none none =
      Except.error "category must be 1, 2, or 3" :=
  C4_invalid_category_error emptyWIdx emptyNIdx emptyPIdx 5 1 0 4
    (by decide) (by decide) (by decide) none none none none none none none none none none none none

/-- Claim C3, code evaluation: the exact-letter first-name query applies
the ms filter to (name, meta) pairs, so the whole name string is tested
against the five one-letter strings; with ms true the name mary (first
letter m) is dropped and with ms false it is kept, while query_category
implements the documented first-letter behavior. -/
theorem C3_ms_toggle_evaluation :
    FirstNameIndex.query idxMary 4 'm' 2 4 none none none none none (some true) = [] ∧
    FirstNameIndex.query idxMary 4 'm' 2 4 none none none none none (some false) = ["mary"] ∧
    FirstNameIndex.query_category idxMary 4 1 2 4 none none none none none none none
      (some true) = Except.ok ["mary"] ∧
    FirstNameIndex.query_category idxMary 4 1 2 4 none none none none none none none
      (some false) = Except.ok [] := by decide

/-- Claim C2, counterexample: in the JSONL build the compound flag is
preset from separators, so snowball carries compound = false in the final
index even though snow and ball are both in the vocabulary and the
glued-compound split search would find the split. -/
theorem C2_compound_counterexample :
    (∃ e ∈ WordIndex.finalBucket hold0 lab0 rowsC2 ⟨8, 's', 3, 6⟩,
       e.word = "snowball" ∧ e.compound = some false) ∧
    "snow" ∈ WordIndex.noun_set hold0 rowsC2 ∧
    "ball" ∈ WordIndex.noun_set hold0 rowsC2 ∧
    WordIndex.gluedCompound (WordIndex.noun_set hold0 rowsC2) "snowball" = true := by decide

/-- Claim C2 as amended: the per-item compound pass leaves an entry whose
compound key is already set unchanged, and every entry of the final
JSONL-built index carries the preset flag, namely whether its originating
subject contained a space or hyphen; the glued-compound heuristic never
fires on this path. -/
theorem C2_compound_amended :
    (∀ ns (e : WordIndex.Entry), e.compound.isSome →
       WordIndex.add_compound_flag ns e = e) ∧
    (∀ hold labels rows k e, e ∈ WordIndex.finalBucket hold labels rows k →
       ∃ subj ∈ WordIndex.all_subjects rows,
         e.word = stripChars ['-'] subj ∧
         e.compound = some (subj.data.contains ' ' || subj.data.contains '-')) := by
  refine ⟨fun ns e h => add_compound_flag_preset ns e h, ?_⟩
  intro hold labels rows k e he
  rcases (mem_finalBucket he).2 with ⟨subj, hsubj, _, hword, hcomp, _, _⟩
  exact ⟨subj, hsubj, hword, hcomp⟩

/-- Witness for the amended C2 at the snowball build. -/
theorem C2_compound_amended_witness :
    ∃ subj ∈ WordIndex.all_subjects rowsC2,
      entrySnowball.word = stripChars ['-'] subj ∧
      entrySnowball.compound = some (subj.data.contains ' ' || subj.data.contains '-') :=
  C2_compound_amended.2 hold0 lab0 rowsC2 ⟨8, 's', 3, 6⟩ entrySnowball (by decide)

/-- Claim C5, counterexample: three non-absent constraint strings that
are not of the one-or-more-digits-then-single-letter form the claim
describes, none of which raises: the empty string is treated as absent
(Python truthiness), a constraint with a trailing newline is accepted
because the regex end anchor also matches before a final newline, and an
Arabic-Indic digit five is accepted because the regex digit class covers
every Unicode decimal digit; the latter two filter normally (the
trailing-newline form keeps chairs under 5R and drops it under 5S). -/
theorem C5_constraint_counterexample :
    WordIndex.query_category idxTemple 6 1 2 6 (some "") none none none =
      Except.ok [entryTemple] ∧
    WordIndex.query_category idxChairs 6 2 3 4 (some "5S\n") none none none =
      Except.ok [] ∧
    WordIndex.query_category idxChairs 6 2 3 4 (some "5R\n") none none none =
      Except.ok [entryChairs] ∧
    WordIndex.query_category idxChairs 6 2 3 4 (some "\u0665S") none none none =
      Except.ok [] ∧
    parse_random_constraint "5S\n" = some (5, 's') ∧
    parse_random_constraint "\u0665S" = some (5, 's') := by decide

/-- Claim C5 as amended: the empty constraint string is treated as
absent; for a non-absent, nonempty string, a string not matching the
pattern of the source regex (one or more Unicode decimal digits followed
by a single ASCII letter, with one trailing newline tolerated by the end
anchor) raises a caller error, and a matching constraint keeps exactly
the candidates whose letter at the given 1-based position (separators
removed, out of range giving a non-matching sentinel) equals the given
letter lowercased. -/
theorem C5_positional_constraint_amended (idx : SKey → List WordIndex.Entry)
    (length category v1 v2 : Nat) (letters : List Char) (s : String)
    (hcat : WordIndex.CATEGORY_MAP category = some letters) (hs : s ≠ "") :
    (parse_random_constraint s = none →
      WordIndex.query_category idx length category v1 v2 (some s) none none none =
        Except.error
          "random_constraint must look like \x275S\x27 (position followed by letter)") ∧
    (∀ pos c, parse_random_constraint s = some (pos, c) →
      WordIndex.query_category idx length category v1 v2 (some s) none none none =
        Except.ok ((dedupKeyed (fun e => e.word)
          (WordIndex.candidates idx length letters v1 v2) []).filter
          (fun e => WordIndex.char_at e.word pos == some c))) := by
  have hbe : ¬((s == "") = true) := by simp [hs]
  have key : ∀ l : List WordIndex.Entry, WordIndex.rcFilter (some s) l =
      (match parse_random_constraint s with
       | none => Except.error
           "random_constraint must look like \x275S\x27 (position followed by letter)"
       | some pc =>
           Except.ok (l.filter (fun e => WordIndex.char_at e.word pc.1 == some pc.2))) := by
    intro l
    show (if (s == "") = true then Except.ok l
        else
          match parse_random_constraint s with
          | none =>
              Except.error
                "random_constraint must look like \x275S\x27 (position followed by letter)"
          | some pc =>
              Except.ok (l.filter (fun e => WordIndex.char_at e.word pc.1 == some pc.2))) = _
    rw [if_neg hbe]
  constructor
  · intro hp
    have hrc : WordIndex.rcFilter (some s)
        (dedupKeyed (fun e => e.word) (WordIndex.candidates idx length letters v1 v2) []) =
        Except.error
          "random_constraint must look like \x275S\x27 (position followed by letter)" := by
      rw [key, hp]
    unfold WordIndex.query_category
    rw [hcat]
    show (match WordIndex.rcFilter (some s)
        (dedupKeyed (fun e => e.word) (WordIndex.candidates idx length letters v1 v2) []) with
      | Except.error e => Except.error e
      | Except.ok filtered =>
          Except.ok (WordIndex.compoundFilter none (WordIndex.moreVowelsFilter none filtered))) = _
    rw [hrc]
  · intro pos c hp
    have hrc : WordIndex.rcFilter (some s)
        (dedupKeyed (fun e => e.word) (WordIndex.candidates idx length letters v1 v2) []) =
        Except.ok ((dedupKeyed (fun e => e.word)
          (WordIndex.candidates idx length letters v1 v2) []).filter
          (fun e => WordIndex.char_at e.word pos == some c)) := by
      rw [key, hp]
    unfold WordIndex.query_category
    rw [hcat]
    show (match WordIndex.rcFilter (some s)
        (dedupKeyed (fun e => e.word) (WordIndex.candidates idx length letters v1 v2) []) with
      | Except.error e => Except.error e
      | Except.ok filtered =>
          Except.ok (WordIndex.compoundFilter none (WordIndex.moreVowelsFilter none filtered))) = _
    rw [hrc]
    rfl

/-- Witness for the amended C5: constraint 5S on an index holding chairs,
whose fifth letter is r, yields an empty filtered result. -/
theorem C5_positional_constraint_witness :
    WordIndex.query_category idxChairs 6 2 3 4 (some "5S") none none none = Except.ok [] := by
  have h := (C5_positional_constraint_amended idxChairs 6 2 3 4
    ['C', 'G', 'O', 'J', 'Q', 'S', 'U'] "5S" rfl (by decide)).2 5 's' (by decide)
  rw [h]
  decide

/-- Claim C6: a noun classified person by the classifier never reaches the
final common-noun index, an entry in the final index never carries the
person, abstract or place category, and hence no query_category result on
the built index contains such an entry. -/
theorem C6_person_never_indexed :
    (∀ hold labels rows k e, e ∈ WordIndex.finalBucket hold labels rows k →
       e.cat ∉ WordIndex.excluded_categories ∧
       ∃ subj ∈ WordIndex.all_subjects rows,
         (classify_subject subj).1 ≠ "person" ∧ e.word = stripChars ['-'] subj) ∧
    (∀ hold labels rows length category v1 v2 rc mv hd cp out,
       WordIndex.query_category (WordIndex.finalBucket hold labels rows)
         length category v1 v2 rc mv hd cp = Except.ok out →
       ∀ e ∈ out, e.cat ∉ WordIndex.excluded_categories) := by
  constructor
  · intro hold labels rows k e he
    rcases mem_finalBucket he with ⟨hcat, subj, hsubj, hper, hword, _⟩
    exact ⟨hcat, subj, hsubj, hper, hword⟩
  · intro hold labels rows length category v1 v2 rc mv hd cp out hok e he
    rcases query_category_ok hok with ⟨letters, _, hsub⟩
    have h1 := (dedupKeyed_sublist (fun x : WordIndex.Entry => x.word) _ _).subset (hsub.subset he)
    rcases candidates_mem h1 with ⟨L, _, hmem⟩
    exact (mem_finalBucket hmem).1

/-- Witness for C6 at the snowball build. -/
theorem C6_person_never_indexed_witness :
    entrySnowball.cat ∉ WordIndex.excluded_categories :=
  (C6_person_never_indexed.1 hold0 lab0 rowsC2 ⟨8, 's', 3, 6⟩ entrySnowball (by decide)).1

/-- Claim C8: every structural-key bucket of the built common-noun index
has pairwise distinct words, the dedup pass keeps exactly the first
occurrence of each word in insertion order, and both the exact lookup on
the built index and every successful query_category return duplicate-free
lists. -/
theorem C8_bucket_dedup :
    (∀ hold labels rows k,
       ((WordIndex.finalBucket hold labels rows k).map (fun e => e.word)).Nodup) ∧
    (∀ (l : List WordIndex.Entry),
       (dedupKeyed (fun e => e.word) l []).Sublist l ∧
       ∀ e ∈ dedupKeyed (fun e => e.word) l [],
         l.find? (fun z => z.word == e.word) = some e) ∧
    (∀ hold labels rows length first_letter v1 v2 category hd,
       ((WordIndex.query (WordIndex.finalBucket hold labels rows)
         length first_letter v1 v2 category hd).map (fun e => e.word)).Nodup) ∧
    (∀ idx length category v1 v2 rc mv hd cp out,
       WordIndex.query_category idx length category v1 v2 rc mv hd cp = Except.ok out →
       (out.map (fun e => e.word)).Nodup) := by
  refine ⟨finalBucket_words_nodup, ?_, ?_, ?_⟩
  · intro l
    exact ⟨dedupKeyed_sublist _ l [], fun e he => dedupKeyed_find? (fun x : WordIndex.Entry => x.word) he⟩
  · intro hold labels rows length first_letter v1 v2 category hd
    exact finalBucket_words_nodup hold labels rows _
  · intro idx length category v1 v2 rc mv hd cp out hok
    rcases query_category_ok hok with ⟨letters, _, hsub⟩
    exact List.Nodup.sublist (hsub.map _) (dedupKeyed_nodup _ _ _)

/-- Witness for C8: in the duplicated bucket, the deduplicated list keeps
the first snow record, the one find? locates. -/
theorem C8_bucket_dedup_witness :
    dupBucket.find? (fun z => z.word == dupSnow.word) = some dupSnow :=
  (C8_bucket_dedup.2.1 dupBucket).2 dupSnow (by decide)

/-- Claim C9: the three bucket tables are identical across the domain
indexes, jointly cover the alphabet, overlap exactly on J and U between
buckets 2 and 3, and an indexed word stored under first letter j or u is
returned by query_category for bucket 2 and for bucket 3 alike. -/
theorem C9_category_buckets :
    (∀ n, WordIndex.CATEGORY_MAP n = FirstNameIndex.CATEGORY_MAP n ∧
          WordIndex.CATEGORY_MAP n = PlaceIndex.CATEGORY_MAP n) ∧
    (∀ c ∈ alphabetUpper,
       c ∈ (WordIndex.CATEGORY_MAP 1).getD [] ++ (WordIndex.CATEGORY_MAP 2).getD [] ++
           (WordIndex.CATEGORY_MAP 3).getD []) ∧
    ('J' ∈ (WordIndex.CATEGORY_MAP 2).getD [] ∧ 'J' ∈ (WordIndex.CATEGORY_MAP 3).getD [] ∧
     'U' ∈ (WordIndex.CATEGORY_MAP 2).getD [] ∧ 'U' ∈ (WordIndex.CATEGORY_MAP 3).getD []) ∧
    (∀ idx length v1 v2 (c : Char) (e : WordIndex.Entry), (c = 'j' ∨ c = 'u') →
       e ∈ idx ⟨length, c, v1, v2⟩ →
       ∀ category ∈ [2, 3], ∃ out,
         WordIndex.query_category idx length category v1 v2 none none none none =
           Except.ok out ∧ e.word ∈ out.map (fun x : WordIndex.Entry => x.word)) := by
  refine ⟨fun n => ⟨rfl, rfl⟩, by decide, by decide, ?_⟩
  intro idx length v1 v2 c e hc he category hcat
  rcases List.mem_cons.mp hcat with rfl | hcat
  · refine ⟨_, query_category_no_filters rfl, ?_⟩
    have hL : ∃ L ∈ ['C', 'G', 'O', 'J', 'Q', 'S', 'U'], L.toLower = c := by
      rcases hc with rfl | rfl
      · exact ⟨'J', by decide, by decide⟩
      · exact ⟨'U', by decide, by decide⟩
    rcases hL with ⟨L, hLmem, hLlow⟩
    have hcand : e ∈ WordIndex.candidates idx length ['C', 'G', 'O', 'J', 'Q', 'S', 'U'] v1 v2 := by
      apply mem_candidates hLmem
      rw [hLlow]; exact he
    rcases dedupKeyed_covers (fun x : WordIndex.Entry => x.word) hcand (List.not_mem_nil _) with ⟨y, hy, hkey⟩
    exact List.mem_map.mpr ⟨y, hy, hkey⟩
  · rcases List.mem_cons.mp hcat with rfl | hcat
    · refine ⟨_, query_category_no_filters rfl, ?_⟩
      have hL : ∃ L ∈ ['B', 'D', 'P', 'R', 'J', 'U'], L.toLower = c := by
        rcases hc with rfl | rfl
        · exact ⟨'J', by decide, by decide⟩
        · exact ⟨'U', by decide, by decide⟩
      rcases hL with ⟨L, hLmem, hLlow⟩
      have hcand : e ∈ WordIndex.candidates idx length ['B', 'D', 'P', 'R', 'J', 'U'] v1 v2 := by
        apply mem_candidates hLmem
        rw [hLlow]; exact he
      rcases dedupKeyed_covers (fun x : WordIndex.Entry => x.word) hcand (List.not_mem_nil _) with ⟨y, hy, hkey⟩
      exact List.mem_map.mpr ⟨y, hy, hkey⟩
    · simp at hcat

/-- Witness for C9: the word jug, stored under first letter j, appears in
the bucket 2 result and in the bucket 3 result. -/
theorem C9_category_buckets_witness :
    (∃ out, WordIndex.query_category idxJug 3 2 2 0 none none none none = Except.ok out ∧
       entryJug.word ∈ out.map (fun x : WordIndex.Entry => x.word)) ∧
    (∃ out, WordIndex.query_category idxJug 3 3 2 0 none none none none = Except.ok out ∧
       entryJug.word ∈ out.map (fun x : WordIndex.Entry => x.word)) := by
  have h := C9_category_buckets.2.2.2 idxJug 3 2 0 'j' entryJug (Or.inl rfl) (by decide)
  exact ⟨h 2 (by decide), h 3 (by decide)⟩

/-- Claim C1, counterexample: two first-name indexes whose sole records
differ in their metadata (gender of john) produce identical query_category
results, so the returned list is bare names, not the full metadata
records the claim asserts for all three domain indexes. -/
theorem C1_record_return_counterexample :
    FirstNameIndex.query_category idxJohnM 4 2 2 0 none none none none none none none none =
      FirstNameIndex.query_category idxJohnF 4 2 2 0 none none none none none none none none ∧
    idxJohnM ⟨4, 'j', 2, 0⟩ ≠ idxJohnF ⟨4, 'j', 2, 0⟩ := by decide

/-- Claim C1 as amended: WordIndex.query_category returns the stored full
metadata records themselves (each output element is an entry of some
bucket of the index), while FirstNameIndex.query_category and
PlaceIndex.query_category return bare name strings, each the name
component of some stored (name, metadata) pair, the metadata being used
only for filtering. -/
theorem C1_record_return_amended :
    (∀ idx length category v1 v2 rc mv hd cp out,
       WordIndex.query_category idx length category v1 v2 rc mv hd cp = Except.ok out →
       ∀ e ∈ out, ∃ letters L, WordIndex.CATEGORY_MAP category = some letters ∧
         L ∈ letters ∧ e ∈ idx ⟨length, L.toLower, v1, v2⟩) ∧
    (∀ idx length category v1 v2 rc mv g o c nk r ms out,
       FirstNameIndex.query_category idx length category v1 v2 rc mv g o c nk r ms =
         Except.ok out →
       ∀ s ∈ out, ∃ m letters L, FirstNameIndex.CATEGORY_MAP category = some letters ∧
         L ∈ letters ∧ (s, m) ∈ idx ⟨length, L.toLower, v1, v2⟩) ∧
    (∀ idx length category v1 v2 rc mv t rg c out,
       PlaceIndex.query_category idx length category v1 v2 rc mv t rg c = Except.ok out →
       ∀ s ∈ out, ∃ m letters L, PlaceIndex.CATEGORY_MAP category = some letters ∧
         L ∈ letters ∧ (s, m) ∈ idx ⟨length, L.toLower, v1, v2⟩) := by
  refine ⟨?_, ?_, ?_⟩
  · intro idx length category v1 v2 rc mv hd cp out hok e he
    rcases query_category_ok hok with ⟨letters, hcat, hsub⟩
    have h1 := (dedupKeyed_sublist (fun x : WordIndex.Entry => x.word) _ _).subset (hsub.subset he)
    rcases candidates_mem h1 with ⟨L, hL, hmem⟩
    exact ⟨letters, L, hcat, hL, hmem⟩
  · intro idx length category v1 v2 rc mv g o c nk r ms out hok s hs
    rcases fn_query_category_ok hok with ⟨letters, hcat, hall⟩
    rcases hall s hs with ⟨m, hm⟩
    rcases fn_candidates_mem hm with ⟨L, hL, hmem⟩
    exact ⟨m, letters, L, hcat, hL, hmem⟩
  · intro idx length category v1 v2 rc mv t rg c out hok s hs
    rcases pl_query_category_ok hok with ⟨letters, hcat, hall⟩
    rcases hall s hs with ⟨m, hm⟩
    rcases pl_candidates_mem hm with ⟨L, hL, hmem⟩
    exact ⟨m, letters, L, hcat, hL, hmem⟩

/-- Witness for the amended C1: the name mary returned by the first-name
query_category is the name component of a stored pair of the index. -/
theorem C1_record_return_amended_witness :
    ∃ m letters L, FirstNameIndex.CATEGORY_MAP 1 = some letters ∧ L ∈ letters ∧
      ("mary", m) ∈ idxMary ⟨4, L.toLower, 2, 4⟩ :=
  C1_record_return_amended.2.1 idxMary 4 1 2 4 none none none none none none none none
    ["mary"] (by decide) "mary" (by decide)

end Enigma
